import Mathlib

/-!
Verification development for the storage-proxy repository.

The repository wraps the host key-value stores (localStorage and
sessionStorage) behind ES6 proxies.  The final, most capable variant
(the whole-object variant) keeps a single JSON document per namespace:
the document is loaded once at creation, deeply observed for mutations,
and every observed mutation re-serializes the whole document back under
the namespace key.  The earlier per-key variant (src/lib.ts) contributes
the namespaced-key codec.

Shallow embedding conventions:
- JSON-compatible values are the inductive `Json` below.  The host
  serialization format (JSON.stringify / JSON.parse) is an external
  collaborator of the repository; it is modeled as the identity
  embedding of `Json` values, so the backing store maps string keys to
  `Json` values and "deserializes to" means "is the stored value".
- The host stores are association lists; a write log records every
  `setItem` so that "persisted exactly once" is expressible.
- Store availability (the memoized result of the availability probe) is
  an environment flag per storage target.
- JS `undefined` is represented by absence (`Option.none`); the sentinel
  `null` returned by the proxy get trap is `Json.null`.
- btoa / atob are the real base64 codec on latin-1 code points; they
  return `Option` where the host functions would throw.
-/

/-- JSON-compatible values: the value domain of the web storage model. -/
inductive Json where
  | null
  | bool (b : Bool)
  | num (n : Int)
  | str (s : String)
  | arr (elems : List Json)
  | obj (fields : List (String × Json))
deriving Repr

mutual

/-- Structural equality test on JSON values. -/
def Json.beq : Json → Json → Bool
  | Json.null, Json.null => true
  | Json.bool a, Json.bool b => a = b
  | Json.num a, Json.num b => a = b
  | Json.str a, Json.str b => a = b
  | Json.arr a, Json.arr b => Json.beqList a b
  | Json.obj a, Json.obj b => Json.beqFields a b
  | _, _ => false

/-- Elementwise equality test on JSON arrays. -/
def Json.beqList : List Json → List Json → Bool
  | [], [] => true
  | a :: as, b :: bs => Json.beq a b && Json.beqList as bs
  | _, _ => false

/-- Entrywise equality test on JSON object fields. -/
def Json.beqFields : List (String × Json) → List (String × Json) → Bool
  | [], [] => true
  | (k1, v1) :: as, (k2, v2) :: bs => k1 = k2 && Json.beq v1 v2 && Json.beqFields as bs
  | _, _ => false

end

/-- Structural equality on JSON values agrees with propositional equality. -/
theorem Json.beq_iff (a b : Json) : Json.beq a b = true ↔ a = b := by
  refine Json.beq.induct
    (fun a b => Json.beq a b = true ↔ a = b)
    (fun x y => Json.beqFields x y = true ↔ x = y)
    (fun x y => Json.beqList x y = true ↔ x = y)
    ?_ ?_ ?_ ?_ ?_ ?_ ?_ ?_ ?_ ?_ ?_ ?_ ?_ a b
  · simp [Json.beq]
  · intro a b; simp [Json.beq]
  · intro a b; simp [Json.beq]
  · intro a b; simp [Json.beq]
  · intro a b ih; simp [Json.beq, ih]
  · intro a b ih; simp [Json.beq, ih]
  · intro t x h1 h2 h3 h4 h5 h6
    cases t <;> cases x <;> simp [Json.beq] <;>
      first
        | exact (h1 rfl rfl).elim
        | exact fun h => nomatch h
        | (rename_i p q; exact (h2 p q rfl rfl).elim)
        | (rename_i p q; exact (h3 p q rfl rfl).elim)
        | (rename_i p q; exact (h4 p q rfl rfl).elim)
        | (rename_i p q; exact (h5 p q rfl rfl).elim)
        | (rename_i p q; exact (h6 p q rfl rfl).elim)
  · simp [Json.beqList]
  · intro a as b bs ih1 ih2; simp [Json.beqList, ih1, ih2]
  · intro t x h1 h2
    cases t <;> cases x <;> simp [Json.beqList] <;>
      first
        | exact (h1 rfl rfl).elim
        | (rename_i p ps q qs; exact (h2 p ps q qs rfl rfl).elim)
  · simp [Json.beqFields]
  · intro k1 v1 as k2 v2 bs ih1 ih2
    simp [Json.beqFields, ih1, ih2, and_assoc]
  · intro t x h1 h2
    cases t <;> cases x <;> simp [Json.beqFields] <;>
      first
        | exact (h1 rfl rfl).elim
        | (rename_i p ps q qs; exact (h2 p.1 p.2 ps q.1 q.2 qs (by simp) (by simp)).elim)

instance : DecidableEq Json := fun a b => decidable_of_iff _ (Json.beq_iff a b)

/-- Association-list lookup on string-keyed fields (first occurrence). -/
def lookupField (k : String) : List (String × Json) → Option Json
  | [] => none
  | (k2, v) :: rest => if k2 = k then some v else lookupField k rest

/-- Set a field: replace the first occurrence in place, or append a new
field at the end.  This matches JS property-assignment order semantics:
an existing property keeps its position, a new property is appended. -/
def setField (k : String) (v : Json) : List (String × Json) → List (String × Json)
  | [] => [(k, v)]
  | (k2, v2) :: rest => if k2 = k then (k, v) :: rest else (k2, v2) :: setField k v rest

/-- Remove a field.  JS objects never hold duplicate keys, so removing
every occurrence coincides with removing the property. -/
def removeField (k : String) (fs : List (String × Json)) : List (String × Json) :=
  fs.filter (fun kv => kv.1 ≠ k)

/-- JS truthiness on JSON values: null, false, 0 and the empty string
are falsy, everything else (including every array and object) is truthy. -/
def jsTruthy : Json → Bool
  | Json.null => false
  | Json.bool b => b
  | Json.num n => n ≠ 0
  | Json.str s => s ≠ ""
  | Json.arr _ => true
  | Json.obj _ => true

/-- JS string coercion, as applied by `atob` to a non-string argument.
Arrays join their elements with commas; objects print the object tag. -/
def jsToString : Json → String
  | Json.null => "null"
  | Json.bool b => if b then "true" else "false"
  | Json.num n => toString n
  | Json.str s => s
  | Json.arr xs => String.intercalate "," (xs.map (fun x => jsToStringAux x))
  | Json.obj _ => "[object Object]"
where
  /-- Elementwise coercion inside an array (one level, as JS `join`). -/
  jsToStringAux : Json → String
    | Json.null => ""
    | Json.bool b => if b then "true" else "false"
    | Json.num n => toString n
    | Json.str s => s
    | Json.arr _ => ""
    | Json.obj _ => "[object Object]"

/-- Field access `data[key]` on a parsed JSON value: only objects expose
string-keyed fields; on every other value the access yields undefined. -/
def jsonField (j : Json) (k : String) : Option Json :=
  match j with
  | Json.obj fs => lookupField k fs
  | _ => none

/-- Own enumerable string-keyed entries produced by spreading a parsed
JSON value into an object literal (or by `Object.entries`): objects
contribute their fields, arrays and strings contribute index-keyed
entries, primitives contribute nothing. -/
def spreadFields : Json → List (String × Json)
  | Json.obj fs => fs
  | Json.arr xs => xs.enum.map (fun p => (toString p.1, p.2))
  | Json.str s => s.data.enum.map (fun p => (toString p.1, Json.str (String.mk [p.2])))
  | _ => []

-- ---------------------------------------------------------------------------
-- Base64 (window.btoa / window.atob), used by the integrity-seed check.
-- ---------------------------------------------------------------------------

/-- The base64 alphabet in index order. -/
def b64Alphabet : List Char :=
  [ 'A','B','C','D','E','F','G','H','I','J','K','L','M','N','O','P',
    'Q','R','S','T','U','V','W','X','Y','Z','a','b','c','d','e','f',
    'g','h','i','j','k','l','m','n','o','p','q','r','s','t','u','v',
    'w','x','y','z','0','1','2','3','4','5','6','7','8','9','+','/' ]

/-- Character for a sextet. -/
def b64CharOf (n : Nat) : Char := b64Alphabet.getD n 'A'

/-- Sextet for a base64 character, if any. -/
def b64IndexOf (c : Char) : Option Nat := b64Alphabet.indexOf? c

/-- Encode a byte sequence to base64 characters, three bytes at a time,
padding the final incomplete chunk with the character =. -/
def btoaBytes : List Nat → List Char
  | [] => []
  | [a] => [b64CharOf (a / 4), b64CharOf (a % 4 * 16), '=', '=']
  | [a, b] => [b64CharOf (a / 4), b64CharOf (a % 4 * 16 + b / 16), b64CharOf (b % 16 * 4), '=']
  | a :: b :: c :: rest =>
      b64CharOf (a / 4) :: b64CharOf (a % 4 * 16 + b / 16) ::
      b64CharOf (b % 16 * 4 + c / 64) :: b64CharOf (c % 64) :: btoaBytes rest

/-- Decode base64 characters back to bytes; `none` on malformed input
(where the host atob would throw an InvalidCharacterError).  Padding
with = is accepted only at the very end of the input. -/
def atobChars : List Char → Option (List Nat)
  | [] => some []
  | c1 :: c2 :: c3 :: c4 :: rest =>
      match b64IndexOf c1, b64IndexOf c2 with
      | some x1, some x2 =>
          if c3 = '=' then
            if c4 = '=' ∧ rest = [] then some [x1 * 4 + x2 / 16] else none
          else
            match b64IndexOf c3 with
            | some x3 =>
                if c4 = '=' then
                  if rest = [] then some [x1 * 4 + x2 / 16, x2 % 16 * 16 + x3 / 4]
                  else none
                else
                  match b64IndexOf c4, atobChars rest with
                  | some x4, some bs =>
                      some ((x1 * 4 + x2 / 16) :: (x2 % 16 * 16 + x3 / 4) ::
                        (x3 % 4 * 64 + x4) :: bs)
                  | _, _ => none
            | none => none
      | _, _ => none
  | _ => none

/-- window.btoa: encode a latin-1 string; the host throws on code points
above 255, modeled as `none`. -/
def btoaStr (s : String) : Option String :=
  if s.data.all (fun c => c.toNat < 256) then
    some (String.mk (btoaBytes (s.data.map Char.toNat)))
  else none

/-- window.atob: decode a base64 string; `none` where the host throws. -/
def atobStr (s : String) : Option String :=
  match atobChars s.data with
  | some bs => some (String.mk (bs.map Char.ofNat))
  | none => none

-- ---------------------------------------------------------------------------
-- The whole-object storage proxy (the final variant of the library).
-- ---------------------------------------------------------------------------

/-- Web storage targets: localStorage and sessionStorage. -/
inductive StorageTarget where
  | localStorage
  | sessionStorage
deriving DecidableEq, Repr

/-- Errors raised by the library: TypeError (invalid argument shapes),
plain Error (empty namespace at creation), and the InvalidCharacterError
DOMException thrown by btoa and atob on malformed input. -/
inductive JsError where
  | typeError (msg : String)
  | error (msg : String)
  | invalidCharacter
deriving DecidableEq, Repr

/-- The environment: for each storage target, the memoized result of the
availability probe (`StorageProxy.isStorageAvailable`).  The probe runs
once per target and every later consultation returns the cached flag, so
a fixed boolean per target models all reads of it. -/
structure Env where
  avail : StorageTarget → Bool

/-- StorageProxy.isStorageAvailable, read from the memoized cache. -/
def isStorageAvailable (env : Env) (t : StorageTarget) : Bool :=
  env.avail t

/-- The two host stores, each a string-keyed map holding serialized
values (serialization is modeled as the identity on `Json`), plus a log
recording every `setItem` call so write counts are observable. -/
structure Stores where
  store : StorageTarget → List (String × Json)
  writeLog : List (StorageTarget × String × Json)

/-- window[storageTarget].getItem(key). -/
def storeGetItem (s : Stores) (t : StorageTarget) (k : String) : Option Json :=
  lookupField k (s.store t)

/-- window[storageTarget].setItem(key, value). -/
def storeSetItem (s : Stores) (t : StorageTarget) (k : String) (v : Json) : Stores :=
  { store := fun t2 => if t2 = t then setField k v (s.store t) else s.store t2,
    writeLog := (t, k, v) :: s.writeLog }

/-- The in-memory `StorageProxyObject`: the string-keyed document fields
plus the symbol-keyed attributes.  Symbol keys are never enumerable and
never serialized, so they live outside the field list: `ns` is the value
at the namespace symbol, `target` at the storage-target symbol, and
`defaults` at the default-values symbol (`none` when the symbol was
never attached, i.e. the factory received no defaults). -/
structure HandleState where
  fields : List (String × Json)
  ns : String
  target : StorageTarget
  defaults : Option (List (String × Json))
deriving DecidableEq, Repr

/-- JSON.stringify(proxyData): the serialized namespace document.  Only
string-keyed enumerable fields are serialized; symbol keys are skipped
by JSON.stringify. -/
def docJson (h : HandleState) : Json :=
  Json.obj h.fields

/-- Object.keys(storageProxy): own enumerable string keys, in insertion
order.  Symbol-keyed attributes are never listed by Object.keys. -/
def ownKeys (h : HandleState) : List String :=
  h.fields.map Prod.fst

/-- The reserved logical key holding the integrity seed. -/
def storageProxyIntegrityKey : String := "__storageProxyIntegrity"

/-- initDataStorage: when the store is available and holds nothing under
the namespace key, write an empty document to it. -/
def initDataStorage (env : Env) (ns : String) (t : StorageTarget) (s : Stores) : Stores :=
  if isStorageAvailable env t then
    match storeGetItem s t ns with
    | none => storeSetItem s t ns (Json.obj [])
    | some _ => s
  else s

/-- getDataFromStorage: parse the stored namespace document, or an empty
document when nothing is stored or the store is unavailable. -/
def getDataFromStorage (env : Env) (ns : String) (t : StorageTarget) (s : Stores) : Json :=
  if isStorageAvailable env t then
    match storeGetItem s t ns with
    | some v => v
    | none => Json.obj []
  else Json.obj []

/-- The proxy get trap: absent fields read as the sentinel null, never
as undefined, so callers can always dot into defaulted structure. -/
def proxyGet (h : HandleState) (k : String) : Json :=
  match lookupField k h.fields with
  | some v => v
  | none => Json.null

/-- A property assignment through the proxy: the on-change observer
applies the mutation to the document and then fires its callback, which
re-serializes the whole document under the namespace key — unless the
new value equals the previous one or the store is unavailable.  (The JS
guard compares with ===, which is reference equality on composites; the
structural comparison used here skips a rewrite of an identical
document, so the resulting store content is the same either way.) -/
def proxySet (env : Env) (h : HandleState) (s : Stores) (k : String) (v : Json) :
    HandleState × Stores :=
  let fire := lookupField k h.fields ≠ some v
  let h2 := { h with fields := setField k v h.fields }
  let s2 := if fire ∧ isStorageAvailable env h.target then
      storeSetItem s h.target h.ns (docJson h2)
    else s
  (h2, s2)

/-- A property deletion through the proxy: the observer removes the
field and fires its callback when the property existed. -/
def proxyDelete (env : Env) (h : HandleState) (s : Stores) (k : String) :
    HandleState × Stores :=
  let fire := (lookupField k h.fields).isSome
  let h2 := { h with fields := removeField k h.fields }
  let s2 := if fire ∧ isStorageAvailable env h.target then
      storeSetItem s h.target h.ns (docJson h2)
    else s
  (h2, s2)

/-- Assign a list of entries through the proxy, in order (the loop shape
shared by restoreDefaults and the cross-context sync listener). -/
def foldSet (env : Env) (es : List (String × Json)) (hs : HandleState × Stores) :
    HandleState × Stores :=
  es.foldl (fun hs kv => proxySet env hs.1 hs.2 kv.1 kv.2) hs

/-- Delete a list of keys through the proxy, in order (the loop shape of
clearStorage). -/
def foldDelete (env : Env) (ks : List String) (hs : HandleState × Stores) :
    HandleState × Stores :=
  ks.foldl (fun hs k => proxyDelete env hs.1 hs.2 k) hs

/-- The creation-time defaults loop: each entry is assigned through the
proxy only when the field is currently absent from the document. -/
def seedDefaults (env : Env) : List (String × Json) → HandleState → Stores →
    HandleState × Stores
  | [], h, s => (h, s)
  | (k, v) :: rest, h, s =>
      if lookupField k h.fields = none then
        let hs := proxySet env h s k v
        seedDefaults env rest hs.1 hs.2
      else seedDefaults env rest h s

/-- createProxy: reject an empty namespace, set up the store entry,
load the namespace document, wrap it with the deep mutation observer,
seed the supplied defaults onto absent fields, and attach the
default-value set under its symbol when defaults were supplied. -/
def createProxy (env : Env) (t : StorageTarget) (ns : String)
    (defaults : Option (List (String × Json))) (s : Stores) :
    Except JsError (HandleState × Stores) :=
  if ns = "" then
    Except.error (JsError.error "Namespace cannot be empty, undefined, or null.")
  else
    let s1 := initDataStorage env ns t s
    let fields0 := spreadFields (getDataFromStorage env ns t s1)
    let h0 : HandleState := { fields := fields0, ns := ns, target := t, defaults := none }
    match defaults with
    | none => Except.ok (h0, s1)
    | some ds =>
        let hs := seedDefaults env ds h0 s1
        Except.ok ({ hs.1 with defaults := some ds }, hs.2)

/-- StorageProxy.createLocalStorage. -/
def createLocalStorage (env : Env) (ns : String)
    (defaults : Option (List (String × Json))) (s : Stores) :
    Except JsError (HandleState × Stores) :=
  createProxy env StorageTarget.localStorage ns defaults s

/-- StorageProxy.createSessionStorage. -/
def createSessionStorage (env : Env) (ns : String)
    (defaults : Option (List (String × Json))) (s : Stores) :
    Except JsError (HandleState × Stores) :=
  createProxy env StorageTarget.sessionStorage ns defaults s

/-- StorageProxy.verifyCache: read the integrity field from the raw
store data, decode it, and compare when a truthy decoded seed exists;
otherwise store the freshly encoded seed through the proxy and report
success.  The JS code reads `data[key]`, tests its truthiness, applies
atob, tests the truthiness of the decoded string, and only then
compares; each atob or btoa failure is a thrown InvalidCharacterError. -/
def verifyCache (env : Env) (h : HandleState) (s : Stores) (seed : String) :
    Except JsError (Bool × HandleState × Stores) :=
  let data := getDataFromStorage env h.ns h.target s
  let storeAndReturnTrue : Except JsError (Bool × HandleState × Stores) :=
    match btoaStr seed with
    | none => Except.error JsError.invalidCharacter
    | some enc =>
        let hs := proxySet env h s storageProxyIntegrityKey (Json.str enc)
        Except.ok (true, hs.1, hs.2)
  match jsonField data storageProxyIntegrityKey with
  | none => storeAndReturnTrue
  | some existingSeed =>
      if jsTruthy existingSeed then
        match atobStr (jsToString existingSeed) with
        | none => Except.error JsError.invalidCharacter
        | some decodedSeed =>
            if decodedSeed ≠ "" then Except.ok (decide (decodedSeed = seed), h, s)
            else storeAndReturnTrue
      else storeAndReturnTrue

/-- StorageProxy.clearStorage: snapshot Object.keys of the handle and
delete every listed key through the proxy delete path. -/
def clearStorage (env : Env) (h : HandleState) (s : Stores) : HandleState × Stores :=
  foldDelete env (ownKeys h) (h, s)

/-- StorageProxy.restoreDefaults: read the default-value set from its
symbol slot and assign every entry through the proxy unconditionally.
When the symbol was never attached, the proxy get trap turns the absent
slot into null and Object.entries(null) throws a TypeError. -/
def restoreDefaults (env : Env) (h : HandleState) (s : Stores) :
    Except JsError (HandleState × Stores) :=
  match h.defaults with
  | none => Except.error (JsError.typeError "Cannot convert undefined or null to object")
  | some ds => Except.ok (foldSet env ds (h, s))

/-- A storage-change notification delivered by the host: the changed key
(null for clear events) and the store area it happened in. -/
structure StorageEvent where
  key : Option String
  storageArea : StorageTarget
deriving DecidableEq, Repr

/-- The cross-context sync listener registered at creation: only when
the changed key equals the namespace and the store area is the target
store is the namespace document reloaded and applied entrywise onto the
handle through the proxy (overwrite semantics). -/
def handleStorageEvent (env : Env) (h : HandleState) (s : Stores) (ev : StorageEvent) :
    HandleState × Stores :=
  if isStorageAvailable env h.target
      ∧ ev.key = some h.ns ∧ ev.storageArea = h.target then
    let data := getDataFromStorage env h.ns h.target s
    foldSet env (spreadFields data) (h, s)
  else (h, s)

-- ---------------------------------------------------------------------------
-- Nested-array mutations observed by the deep proxy (on-change).
-- ---------------------------------------------------------------------------

/-- One step of navigation into a nested JSON document. -/
inductive PathStep where
  | fieldStep (name : String)
  | indexStep (i : Nat)
deriving DecidableEq, Repr

/-- Read the value at a path inside a document. -/
def getPath : Json → List PathStep → Option Json
  | j, [] => some j
  | Json.obj fs, PathStep.fieldStep k :: p =>
      match lookupField k fs with
      | some v => getPath v p
      | none => none
  | Json.arr xs, PathStep.indexStep i :: p =>
      match xs.get? i with
      | some v => getPath v p
      | none => none
  | _, _ => none

/-- Replace the value at a path inside a document; `none` when the path
does not resolve. -/
def setPath : Json → List PathStep → Json → Option Json
  | _, [], v => some v
  | Json.obj fs, PathStep.fieldStep k :: p, v =>
      match lookupField k fs with
      | some w =>
          match setPath w p v with
          | some w2 => some (Json.obj (setField k w2 fs))
          | none => none
      | none => none
  | Json.arr xs, PathStep.indexStep i :: p, v =>
      match xs.get? i with
      | some w =>
          match setPath w p v with
          | some w2 => some (Json.arr (xs.set i w2))
          | none => none
      | none => none
  | _, _ :: _, _ => none

/-- The standard sequence mutations applied through a nested array:
append (push), remove-last (pop), remove-first (shift), and
insert-with-removal at an index (splice). -/
inductive ArrayOp where
  | push (v : Json)
  | pop
  | shift
  | splice (start : Nat) (deleteCount : Nat) (items : List Json)
deriving DecidableEq, Repr

/-- The effect of one sequence mutation on the array contents, with the
start index clamped to the length as JS splice does. -/
def applyArrayOp (xs : List Json) : ArrayOp → List Json
  | ArrayOp.push v => xs ++ [v]
  | ArrayOp.pop => xs.dropLast
  | ArrayOp.shift => xs.tail
  | ArrayOp.splice start deleteCount items =>
      let s := min start xs.length
      xs.take s ++ items ++ xs.drop (s + deleteCount)

/-- One array method call on a nested array of the document, as observed
by the deep mutation observer: the observer reports a method invocation
exactly once, after it completes and only if it changed something, and
the callback then re-serializes the whole document under the namespace
key (skipped when the store is unavailable). -/
def arrayMutate (env : Env) (h : HandleState) (s : Stores) (p : List PathStep)
    (op : ArrayOp) : HandleState × Stores :=
  match getPath (docJson h) p with
  | some (Json.arr xs) =>
      let xs2 := applyArrayOp xs op
      if xs2 = xs then (h, s)
      else
        match setPath (docJson h) p (Json.arr xs2) with
        | some (Json.obj fs2) =>
            let h2 := { h with fields := fs2 }
            let s2 := if isStorageAvailable env h.target then
                storeSetItem s h.target h.ns (docJson h2)
              else s
            (h2, s2)
        | _ => (h, s)
  | _ => (h, s)

/-- A sequence of array method calls on the same nested array. -/
def runArrayOps (env : Env) (p : List PathStep) (ops : List ArrayOp)
    (hs : HandleState × Stores) : HandleState × Stores :=
  ops.foldl (fun hs op => arrayMutate env hs.1 hs.2 p op) hs

/-- How many of the listed operations actually change the array (each of
those is reported and persisted exactly once; the others are unobserved
no-ops such as popping an empty array). -/
def effectiveCount : List Json → List ArrayOp → Nat
  | _, [] => 0
  | xs, op :: ops =>
      let xs2 := applyArrayOp xs op
      (if xs2 = xs then 0 else 1) + effectiveCount xs2 ops

-- ---------------------------------------------------------------------------
-- The namespaced-key codec of the per-key variant (src/lib.ts).
-- The namespace marker is matched with the anchored greedy JS regex
-- that captures one or more arbitrary characters, none of them a line
-- terminator, between an opening bracket and a closing bracket-colon
-- delimiter.  A greedy capture backtracks from the longest candidate,
-- so the capture extends to the last bracket-colon occurrence reachable
-- without crossing a line terminator.
-- ---------------------------------------------------------------------------

/-- The ECMAScript LineTerminator class, which the regex dot never
matches: line feed, carriage return, line separator, paragraph
separator. -/
def isLineTerminator (c : Char) : Bool :=
  c = '\n' || c = '\r' || c = '\u2028' || c = '\u2029'

/-- Whether a character list starts with a colon. -/
def headIsColon : List Char → Bool
  | [] => false
  | c :: _ => c = ':'

/-- Split off the longest line-terminator-free prefix that is followed
by the bracket-colon delimiter: exactly the greedy capture of the
namespace regex after its leading bracket.  Returns the capture
(possibly empty here; the caller enforces nonemptiness) and the residue
after the delimiter. -/
def splitAtLastMarker : List Char → Option (List Char × List Char)
  | [] => none
  | c :: rest =>
      if isLineTerminator c then none
      else
        match splitAtLastMarker rest with
        | some (cap, tail) => some (c :: cap, tail)
        | none =>
            if c = ']' ∧ headIsColon rest then some ([], rest.tail)
            else none

/-- extractNamespaceFromKey: the namespace captured by the (greedy,
anchored) namespace regex, or null when the key is not in namespaced
form. -/
def extractNamespaceFromKey (key : String) : Option String :=
  match key.data with
  | '[' :: rest =>
      match splitAtLastMarker rest with
      | some (cap, _) => if cap.isEmpty then none else some (String.mk cap)
      | none => none
  | _ => none

/-- extractKeyFromNamespacedKey: the key with the namespace-regex match
removed; keys with no match are returned unchanged. -/
def extractKeyFromNamespacedKey (key : String) : String :=
  match key.data with
  | '[' :: rest =>
      match splitAtLastMarker rest with
      | some (cap, tail) => if cap.isEmpty then key else String.mk tail
      | none => key
  | _ => key

/-- isKeyNamespaced: whether the namespace regex matches the key. -/
def isKeyNamespaced (key : String) : Bool :=
  (extractNamespaceFromKey key).isSome

/-- getNamespacedKey: a key already in namespaced form is returned
unchanged; with a falsy (absent or empty) namespace the key is returned
unchanged; otherwise the key is wrapped with the bracket-colon marker. -/
def getNamespacedKey (namespace2 : Option String) (key : String) : String :=
  if isKeyNamespaced key then key
  else
    match namespace2 with
    | none => key
    | some n => if n = "" then key else "[" ++ n ++ "]:" ++ key

/-- validateNamespace: a namespaced key belongs exactly to its embedded
namespace; a plain key belongs only to the root (falsy) namespace. -/
def validateNamespace (namespace2 : Option String) (key : String) : Bool :=
  if isKeyNamespaced key then
    decide (extractNamespaceFromKey key = namespace2)
  else
    match namespace2 with
    | none => true
    | some n => n = ""

/-- Whether a character list contains the bracket-colon delimiter
anywhere (the witness condition for a later greedy match). -/
def hasMarker : List Char → Bool
  | [] => false
  | [_] => false
  | c1 :: c2 :: rest => (c1 = ']' && c2 = ':') || hasMarker (c2 :: rest)

-- ---------------------------------------------------------------------------
-- Concrete scenario used by witnesses and counterexamples.
-- ---------------------------------------------------------------------------

/-- Fallback handle for unwrapping results known to be successes. -/
def fallbackHandle : HandleState :=
  { fields := [], ns := "", target := StorageTarget.localStorage, defaults := none }

/-- Fallback stores for unwrapping results known to be successes. -/
def fallbackStores : Stores :=
  { store := fun _ => [], writeLog := [] }

/-- Unwrap a factory result known to be a success. -/
def okPair (r : Except JsError (HandleState × Stores)) : HandleState × Stores :=
  match r with
  | Except.ok x => x
  | Except.error _ => (fallbackHandle, fallbackStores)

/-- Unwrap a verifyCache result known to be a success. -/
def vcTriple (r : Except JsError (Bool × HandleState × Stores)) :
    Bool × HandleState × Stores :=
  match r with
  | Except.ok x => x
  | Except.error _ => (false, fallbackHandle, fallbackStores)

/-- An environment in which both stores are available. -/
def demoEnv : Env := { avail := fun _ => true }

/-- An environment in which no store is available. -/
def demoEnvDown : Env := { avail := fun _ => false }

/-- Empty host stores. -/
def demoStores0 : Stores := { store := fun _ => [], writeLog := [] }

/-- Host stores holding one namespace document with one field. -/
def demoStores1 : Stores :=
  storeSetItem demoStores0 StorageTarget.localStorage "ns"
    (Json.obj [("alreadySet", Json.num 999)])

/-- Host stores holding one namespace document with a nested array. -/
def demoStoresArr : Stores :=
  storeSetItem demoStores0 StorageTarget.localStorage "ns"
    (Json.obj [("arr", Json.arr [Json.num 1, Json.num 2, Json.num 3])])

/-- The persistence invariant: whenever the target store is available,
the serialized namespace document stored under the namespace key is
exactly the in-memory document of the handle. -/
def Synced (env : Env) (h : HandleState) (s : Stores) : Prop :=
  isStorageAvailable env h.target = true →
    storeGetItem s h.target h.ns = some (docJson h)

-- ---------------------------------------------------------------------------
-- Association-list and store lemmas.
-- ---------------------------------------------------------------------------

theorem lookupField_setField_self (k : String) (v : Json) (fs : List (String × Json)) :
    lookupField k (setField k v fs) = some v := by
  induction fs with
  | nil => simp [setField, lookupField]
  | cons kv rest ih =>
      obtain ⟨k2, v2⟩ := kv
      by_cases h : k2 = k
      · simp [setField, lookupField, h]
      · simp [setField, lookupField, h, ih]

theorem lookupField_setField_ne (k k2 : String) (v : Json) (fs : List (String × Json))
    (h : k ≠ k2) : lookupField k (setField k2 v fs) = lookupField k fs := by
  have h2 : ¬ k2 = k := fun e => h e.symm
  induction fs with
  | nil => simp [setField, lookupField, h2]
  | cons kv rest ih =>
      obtain ⟨k3, v3⟩ := kv
      by_cases h3 : k3 = k2
      · subst h3
        simp [setField, lookupField, h2]
      · simp [setField, lookupField, h3, ih]

theorem setField_of_absent (k : String) (v : Json) (fs : List (String × Json))
    (h : lookupField k fs = none) : setField k v fs = fs ++ [(k, v)] := by
  induction fs with
  | nil => simp [setField]
  | cons kv rest ih =>
      obtain ⟨k2, v2⟩ := kv
      by_cases h2 : k2 = k
      · simp [lookupField, h2] at h
      · simp [lookupField, h2] at h
        simp [setField, h2, ih h]

theorem setField_of_same (k : String) (v : Json) (fs : List (String × Json))
    (h : lookupField k fs = some v) : setField k v fs = fs := by
  induction fs with
  | nil => simp [lookupField] at h
  | cons kv rest ih =>
      obtain ⟨k2, v2⟩ := kv
      by_cases h2 : k2 = k
      · simp [lookupField, h2] at h
        simp [setField, h2, h]
      · simp [lookupField, h2] at h
        simp [setField, h2, ih h]

theorem lookupField_removeField_self (k : String) (fs : List (String × Json)) :
    lookupField k (removeField k fs) = none := by
  induction fs with
  | nil => simp [removeField, lookupField]
  | cons kv rest ih =>
      obtain ⟨k2, v2⟩ := kv
      by_cases h : k2 = k
      · simpa [removeField, h] using ih
      · simp [removeField, lookupField, h] at ih ⊢
        exact ih

theorem storeGetItem_setItem_self (s : Stores) (t : StorageTarget) (k : String) (v : Json) :
    storeGetItem (storeSetItem s t k v) t k = some v := by
  simp [storeGetItem, storeSetItem, lookupField_setField_self]

theorem storeGetItem_setItem_other (s : Stores) (t t2 : StorageTarget) (k k2 : String)
    (v : Json) (h : t2 ≠ t ∨ k2 ≠ k) :
    storeGetItem (storeSetItem s t k v) t2 k2 = storeGetItem s t2 k2 := by
  rcases h with h | h
  · simp [storeGetItem, storeSetItem, h]
  · by_cases h2 : t2 = t
    · subst h2
      simp [storeGetItem, storeSetItem, lookupField_setField_ne _ _ _ _ h]
    · simp [storeGetItem, storeSetItem, h2]

-- ---------------------------------------------------------------------------
-- Base64 round-trip.
-- ---------------------------------------------------------------------------

theorem b64CharOf_spec : ∀ x : Fin 64,
    b64IndexOf (b64CharOf x.val) = some x.val ∧ b64CharOf x.val ≠ '=' := by decide

theorem b64IndexOf_b64CharOf (n : Nat) (h : n < 64) : b64IndexOf (b64CharOf n) = some n :=
  (b64CharOf_spec ⟨n, h⟩).1

theorem b64CharOf_ne_pad (n : Nat) (h : n < 64) : b64CharOf n ≠ '=' :=
  (b64CharOf_spec ⟨n, h⟩).2

theorem atobChars_btoaBytes : ∀ bs : List Nat, (∀ b ∈ bs, b < 256) →
    atobChars (btoaBytes bs) = some bs := by
  intro bs
  induction bs using btoaBytes.induct with
  | case1 => intro _; rfl
  | case2 a =>
      intro h
      have ha : a < 256 := h a (by simp)
      have h1 : a / 4 < 64 := by omega
      have h2 : a % 4 * 16 < 64 := by omega
      simp [btoaBytes, atobChars, b64IndexOf_b64CharOf _ h1, b64IndexOf_b64CharOf _ h2]
      omega
  | case3 a b =>
      intro h
      have ha : a < 256 := h a (by simp)
      have hb : b < 256 := h b (by simp)
      have h1 : a / 4 < 64 := by omega
      have h2 : a % 4 * 16 + b / 16 < 64 := by omega
      have h3 : b % 16 * 4 < 64 := by omega
      simp [btoaBytes, atobChars, b64IndexOf_b64CharOf _ h1, b64IndexOf_b64CharOf _ h2,
        b64IndexOf_b64CharOf _ h3, b64CharOf_ne_pad _ h3]
      constructor <;> omega
  | case4 a b c rest ih =>
      intro h
      have ha : a < 256 := h a (by simp)
      have hb : b < 256 := h b (by simp)
      have hc : c < 256 := h c (by simp)
      have h1 : a / 4 < 64 := by omega
      have h2 : a % 4 * 16 + b / 16 < 64 := by omega
      have h3 : b % 16 * 4 + c / 64 < 64 := by omega
      have h4 : c % 64 < 64 := by omega
      have hrest : atobChars (btoaBytes rest) = some rest :=
        ih (fun x hx => h x (by simp [hx]))
      simp [btoaBytes, atobChars, b64IndexOf_b64CharOf _ h1, b64IndexOf_b64CharOf _ h2,
        b64IndexOf_b64CharOf _ h3, b64IndexOf_b64CharOf _ h4,
        b64CharOf_ne_pad _ h3, b64CharOf_ne_pad _ h4, hrest]
      refine ⟨by omega, by omega, by omega⟩

theorem atobStr_btoaStr (s : String) (e : String) (hs : btoaStr s = some e) :
    atobStr e = some s := by
  unfold btoaStr at hs
  by_cases hall : s.data.all (fun c => c.toNat < 256)
  · simp [hall] at hs
    have hbytes : ∀ b ∈ s.data.map Char.toNat, b < 256 := by
      intro b hb
      simp at hb
      obtain ⟨c, hc, rfl⟩ := hb
      have := List.all_eq_true.mp hall c hc
      simpa using this
    have hdec := atobChars_btoaBytes (s.data.map Char.toNat) hbytes
    subst hs
    unfold atobStr
    have : (String.mk (btoaBytes (s.data.map Char.toNat))).data
        = btoaBytes (s.data.map Char.toNat) := rfl
    rw [this, hdec]
    simp [List.map_map, Function.comp_def, Char.ofNat_toNat]
  · simp [hall] at hs

theorem btoaStr_ne_empty (s : String) (e : String) (hs : btoaStr s = some e)
    (hne : s ≠ "") : e ≠ "" := by
  unfold btoaStr at hs
  by_cases hall : s.data.all (fun c => c.toNat < 256)
  · simp [hall] at hs
    subst hs
    intro he
    have hd : btoaBytes (s.data.map Char.toNat) = [] := by
      have := congrArg String.data he
      simpa using this
    cases hsdata : s.data with
    | nil =>
        apply hne
        cases s
        simp at hsdata
        simp [hsdata]
    | cons c cs =>
        rw [hsdata] at hd
        cases cs with
        | nil => simp [btoaBytes] at hd
        | cons c2 cs2 =>
            cases cs2 with
            | nil => simp [btoaBytes] at hd
            | cons c3 cs3 => simp [btoaBytes] at hd
  · simp [hall] at hs

-- ---------------------------------------------------------------------------
-- Key-codec lemmas.
-- ---------------------------------------------------------------------------

theorem hasMarker_cons_of (c : Char) (l : List Char) (hc : ¬ (c = ']' ∧ headIsColon l))
    (h : hasMarker l = false) : hasMarker (c :: l) = false := by
  cases l with
  | nil => rfl
  | cons c2 rs =>
      simp [hasMarker, headIsColon] at hc ⊢
      refine ⟨?_, h⟩
      intro e
      exact hc e

theorem splitAtLastMarker_none (l : List Char) (h : hasMarker l = false) :
    splitAtLastMarker l = none := by
  induction l with
  | nil => rfl
  | cons c rest ih =>
      have hsub : hasMarker rest = false := by
        cases rest with
        | nil => rfl
        | cons c2 rs =>
            simp [hasMarker] at h
            exact h.2
      have hno : ¬ (c = ']' ∧ headIsColon rest) := by
        cases rest with
        | nil => simp [headIsColon]
        | cons c2 rs =>
            simp [hasMarker, headIsColon] at h ⊢
            intro e
            exact h.1 e
      by_cases hc : isLineTerminator c = true
      · simp [splitAtLastMarker, hc]
      · simp [splitAtLastMarker, hc, ih hsub, hno]

theorem splitAtLastMarker_append (nsChars keyChars : List Char)
    (hk : hasMarker keyChars = false) : (∀ c ∈ nsChars, isLineTerminator c = false) →
    splitAtLastMarker (nsChars ++ ']' :: ':' :: keyChars) = some (nsChars, keyChars) := by
  induction nsChars with
  | nil =>
      intro _
      have hcolon : hasMarker (':' :: keyChars) = false := by
        apply hasMarker_cons_of
        · simp
        · exact hk
      have hrec : splitAtLastMarker (':' :: keyChars) = none :=
        splitAtLastMarker_none _ hcolon
      simp [splitAtLastMarker, hrec, headIsColon, splitAtLastMarker_none _ hk,
        isLineTerminator]
  | cons c cs ih =>
      intro hn
      have hc : isLineTerminator c = false := hn c (by simp)
      have hn2 : ∀ c2 ∈ cs, isLineTerminator c2 = false := by
        intro c2 m
        exact hn c2 (by simp [m])
      simp [splitAtLastMarker, hc, ih hn2]

theorem string_data_empty_iff (s : String) : s.data = [] ↔ s = "" := by
  cases s
  simp [String.ext_iff]

theorem string_mk_data (s : String) : String.mk s.data = s := by
  cases s
  rfl

theorem hasMarker_false_not_namespaced (key : String) (hk : hasMarker key.data = false) :
    isKeyNamespaced key = false := by
  unfold isKeyNamespaced extractNamespaceFromKey
  split
  · rename_i rest heq
    have hsub : hasMarker rest = false := by
      rw [heq] at hk
      cases rest with
      | nil => rfl
      | cons c2 rs => simpa [hasMarker] using hk
    simp [splitAtLastMarker_none _ hsub]
  · rfl

-- ---------------------------------------------------------------------------
-- Proxy-operation lemmas.
-- ---------------------------------------------------------------------------

theorem removeField_of_absent (k : String) (fs : List (String × Json))
    (h : lookupField k fs = none) : removeField k fs = fs := by
  induction fs with
  | nil => rfl
  | cons kv rest ih =>
      obtain ⟨k2, v2⟩ := kv
      by_cases h2 : k2 = k
      · simp [lookupField, h2] at h
      · simp [lookupField, h2] at h
        simp [removeField, h2] at ih ⊢
        exact ih h

theorem proxySet_meta (env : Env) (h : HandleState) (s : Stores) (k : String) (v : Json) :
    (proxySet env h s k v).1.ns = h.ns ∧ (proxySet env h s k v).1.target = h.target ∧
    (proxySet env h s k v).1.defaults = h.defaults ∧
    (proxySet env h s k v).1.fields = setField k v h.fields :=
  ⟨rfl, rfl, rfl, rfl⟩

theorem proxyDelete_meta (env : Env) (h : HandleState) (s : Stores) (k : String) :
    (proxyDelete env h s k).1.ns = h.ns ∧ (proxyDelete env h s k).1.target = h.target ∧
    (proxyDelete env h s k).1.defaults = h.defaults ∧
    (proxyDelete env h s k).1.fields = removeField k h.fields :=
  ⟨rfl, rfl, rfl, rfl⟩

theorem proxySet_synced (env : Env) (h : HandleState) (s : Stores) (k : String) (v : Json)
    (hsync : Synced env h s) :
    Synced env (proxySet env h s k v).1 (proxySet env h s k v).2 := by
  intro hav
  have hav2 : isStorageAvailable env h.target = true := hav
  by_cases hfire : lookupField k h.fields = some v
  · have hsame : setField k v h.fields = h.fields := setField_of_same _ _ _ hfire
    simp [proxySet, hfire, hav2, docJson, hsame]
    simpa [docJson, hsame] using hsync hav2
  · simp [proxySet, hfire, hav2, storeGetItem_setItem_self]

theorem proxySet_stores_unavail (env : Env) (h : HandleState) (s : Stores) (k : String)
    (v : Json) (hav : isStorageAvailable env h.target = false) :
    (proxySet env h s k v).2 = s := by
  simp [proxySet, hav]

theorem proxyDelete_synced (env : Env) (h : HandleState) (s : Stores) (k : String)
    (hsync : Synced env h s) :
    Synced env (proxyDelete env h s k).1 (proxyDelete env h s k).2 := by
  intro hav
  have hav2 : isStorageAvailable env h.target = true := hav
  by_cases hfire : (lookupField k h.fields).isSome
  · simp [proxyDelete, hfire, hav2, storeGetItem_setItem_self]
  · have habs : lookupField k h.fields = none := by
      cases hcase : lookupField k h.fields with
      | none => rfl
      | some w => simp [hcase] at hfire
    have hsame : removeField k h.fields = h.fields := removeField_of_absent _ _ habs
    simp [proxyDelete, hfire, hav2, docJson, hsame]
    simpa [docJson, hsame] using hsync hav2

theorem proxyDelete_stores_unavail (env : Env) (h : HandleState) (s : Stores) (k : String)
    (hav : isStorageAvailable env h.target = false) :
    (proxyDelete env h s k).2 = s := by
  simp [proxyDelete, hav]

-- ---------------------------------------------------------------------------
-- Fold lemmas for the assignment, deletion, and seeding loops.
-- ---------------------------------------------------------------------------

theorem foldSet_meta (env : Env) (es : List (String × Json)) :
    ∀ hs : HandleState × Stores,
      (foldSet env es hs).1.ns = hs.1.ns ∧ (foldSet env es hs).1.target = hs.1.target ∧
      (foldSet env es hs).1.defaults = hs.1.defaults := by
  induction es with
  | nil => intro hs; exact ⟨rfl, rfl, rfl⟩
  | cons kv rest ih =>
      intro hs
      have step := ih (proxySet env hs.1 hs.2 kv.1 kv.2)
      simpa [foldSet] using step

theorem foldSet_synced (env : Env) (es : List (String × Json)) :
    ∀ hs : HandleState × Stores, Synced env hs.1 hs.2 →
      Synced env (foldSet env es hs).1 (foldSet env es hs).2 := by
  induction es with
  | nil => intro hs h; exact h
  | cons kv rest ih =>
      intro hs h
      have step := ih (proxySet env hs.1 hs.2 kv.1 kv.2)
        (proxySet_synced env hs.1 hs.2 kv.1 kv.2 h)
      simpa [foldSet] using step

theorem foldSet_stores_unavail (env : Env) (es : List (String × Json)) :
    ∀ hs : HandleState × Stores, isStorageAvailable env hs.1.target = false →
      (foldSet env es hs).2 = hs.2 := by
  induction es with
  | nil => intro hs _; rfl
  | cons kv rest ih =>
      intro hs hav
      have h1 : (proxySet env hs.1 hs.2 kv.1 kv.2).2 = hs.2 :=
        proxySet_stores_unavail env hs.1 hs.2 kv.1 kv.2 hav
      have h2 : isStorageAvailable env (proxySet env hs.1 hs.2 kv.1 kv.2).1.target = false := hav
      have step := ih (proxySet env hs.1 hs.2 kv.1 kv.2) h2
      rw [h1] at step
      simpa [foldSet] using step

theorem foldSet_lookup_notmem (env : Env) (es : List (String × Json)) :
    ∀ (hs : HandleState × Stores) (k : String), k ∉ es.map Prod.fst →
      lookupField k (foldSet env es hs).1.fields = lookupField k hs.1.fields := by
  induction es with
  | nil => intro hs k _; rfl
  | cons kv rest ih =>
      intro hs k hk
      have hk1 : k ≠ kv.1 := by
        intro e
        exact hk (by simp [e])
      have hk2 : k ∉ rest.map Prod.fst := by
        intro m
        exact hk (by simp [m])
      have step := ih (proxySet env hs.1 hs.2 kv.1 kv.2) k hk2
      show lookupField k (foldSet env rest (proxySet env hs.1 hs.2 kv.1 kv.2)).1.fields
        = lookupField k hs.1.fields
      rw [step]
      exact lookupField_setField_ne k kv.1 kv.2 hs.1.fields hk1

theorem foldSet_lookup_mem (env : Env) (es : List (String × Json))
    (hnd : (es.map Prod.fst).Nodup) :
    ∀ (hs : HandleState × Stores) (k : String) (v : Json), (k, v) ∈ es →
      lookupField k (foldSet env es hs).1.fields = some v := by
  induction es with
  | nil => intro hs k v hm; simp at hm
  | cons kv rest ih =>
      obtain ⟨k0, v0⟩ := kv
      intro hs k v hm
      have hnd3 : k0 ∉ rest.map Prod.fst ∧ (rest.map Prod.fst).Nodup :=
        List.nodup_cons.mp (by simpa using hnd)
      have hnd2 : (rest.map Prod.fst).Nodup := hnd3.2
      have hnot0 : k0 ∉ rest.map Prod.fst := hnd3.1
      rcases List.mem_cons.mp hm with heq | hmem
      · injection heq with h1 h2
        subst h1
        subst h2
        have step := foldSet_lookup_notmem env rest
          (proxySet env hs.1 hs.2 k v) k hnot0
        show lookupField k (foldSet env rest (proxySet env hs.1 hs.2 k v)).1.fields = some v
        rw [step]
        exact lookupField_setField_self k v hs.1.fields
      · exact ih hnd2 (proxySet env hs.1 hs.2 k0 v0) k v hmem

theorem foldDelete_meta (env : Env) (ks : List String) :
    ∀ hs : HandleState × Stores,
      (foldDelete env ks hs).1.ns = hs.1.ns ∧ (foldDelete env ks hs).1.target = hs.1.target ∧
      (foldDelete env ks hs).1.defaults = hs.1.defaults := by
  induction ks with
  | nil => intro hs; exact ⟨rfl, rfl, rfl⟩
  | cons k rest ih =>
      intro hs
      have step := ih (proxyDelete env hs.1 hs.2 k)
      simpa [foldDelete] using step

theorem foldDelete_synced (env : Env) (ks : List String) :
    ∀ hs : HandleState × Stores, Synced env hs.1 hs.2 →
      Synced env (foldDelete env ks hs).1 (foldDelete env ks hs).2 := by
  induction ks with
  | nil => intro hs h; exact h
  | cons k rest ih =>
      intro hs h
      have step := ih (proxyDelete env hs.1 hs.2 k)
        (proxyDelete_synced env hs.1 hs.2 k h)
      simpa [foldDelete] using step

theorem foldDelete_stores_unavail (env : Env) (ks : List String) :
    ∀ hs : HandleState × Stores, isStorageAvailable env hs.1.target = false →
      (foldDelete env ks hs).2 = hs.2 := by
  induction ks with
  | nil => intro hs _; rfl
  | cons k rest ih =>
      intro hs hav
      have h1 : (proxyDelete env hs.1 hs.2 k).2 = hs.2 :=
        proxyDelete_stores_unavail env hs.1 hs.2 k hav
      have h2 : isStorageAvailable env (proxyDelete env hs.1 hs.2 k).1.target = false := hav
      have step := ih (proxyDelete env hs.1 hs.2 k) h2
      rw [h1] at step
      simpa [foldDelete] using step

theorem foldDelete_fields (env : Env) (ks : List String) :
    ∀ hs : HandleState × Stores,
      (foldDelete env ks hs).1.fields
        = hs.1.fields.filter (fun kv => decide (kv.1 ∉ ks)) := by
  induction ks with
  | nil => intro hs; simp [foldDelete]
  | cons k rest ih =>
      intro hs
      have step := ih (proxyDelete env hs.1 hs.2 k)
      simp [foldDelete] at step ⊢
      rw [step]
      simp [proxyDelete, removeField, List.filter_filter]
      apply List.filter_congr
      intro kv _
      by_cases h1 : kv.1 = k <;> simp [h1]

theorem seedDefaults_meta (env : Env) (ds : List (String × Json)) :
    ∀ (h : HandleState) (s : Stores),
      (seedDefaults env ds h s).1.ns = h.ns ∧ (seedDefaults env ds h s).1.target = h.target ∧
      (seedDefaults env ds h s).1.defaults = h.defaults := by
  induction ds with
  | nil => intro h s; exact ⟨rfl, rfl, rfl⟩
  | cons kv rest ih =>
      intro h s
      by_cases habs : lookupField kv.1 h.fields = none
      · have step := ih (proxySet env h s kv.1 kv.2).1 (proxySet env h s kv.1 kv.2).2
        obtain ⟨k, v⟩ := kv
        simpa [seedDefaults, habs] using step
      · obtain ⟨k, v⟩ := kv
        simpa [seedDefaults, habs] using ih h s

theorem seedDefaults_synced (env : Env) (ds : List (String × Json)) :
    ∀ (h : HandleState) (s : Stores), Synced env h s →
      Synced env (seedDefaults env ds h s).1 (seedDefaults env ds h s).2 := by
  induction ds with
  | nil => intro h s hsync; exact hsync
  | cons kv rest ih =>
      intro h s hsync
      by_cases habs : lookupField kv.1 h.fields = none
      · have step := ih (proxySet env h s kv.1 kv.2).1 (proxySet env h s kv.1 kv.2).2
          (proxySet_synced env h s kv.1 kv.2 hsync)
        obtain ⟨k, v⟩ := kv
        simpa [seedDefaults, habs] using step
      · obtain ⟨k, v⟩ := kv
        simpa [seedDefaults, habs] using ih h s hsync

theorem seedDefaults_stores_unavail (env : Env) (ds : List (String × Json)) :
    ∀ (h : HandleState) (s : Stores), isStorageAvailable env h.target = false →
      (seedDefaults env ds h s).2 = s := by
  induction ds with
  | nil => intro h s _; rfl
  | cons kv rest ih =>
      intro h s hav
      by_cases habs : lookupField kv.1 h.fields = none
      · have h1 : (proxySet env h s kv.1 kv.2).2 = s :=
          proxySet_stores_unavail env h s kv.1 kv.2 hav
        have h2 : isStorageAvailable env (proxySet env h s kv.1 kv.2).1.target = false := hav
        have step := ih (proxySet env h s kv.1 kv.2).1 (proxySet env h s kv.1 kv.2).2 h2
        have final := step.trans h1
        obtain ⟨k, v⟩ := kv
        simpa [seedDefaults, habs] using final
      · obtain ⟨k, v⟩ := kv
        simpa [seedDefaults, habs] using ih h s hav

theorem seedDefaults_lookup (env : Env) (ds : List (String × Json)) :
    ∀ (h : HandleState) (s : Stores) (k : String),
      lookupField k (seedDefaults env ds h s).1.fields
        = (lookupField k h.fields).or (lookupField k ds) := by
  induction ds with
  | nil => intro h s k; simp [seedDefaults, lookupField]
  | cons kv rest ih =>
      intro h s k
      obtain ⟨k0, v0⟩ := kv
      by_cases habs : lookupField k0 h.fields = none
      · have step := ih (proxySet env h s k0 v0).1 (proxySet env h s k0 v0).2 k
        have hstep : seedDefaults env ((k0, v0) :: rest) h s
            = seedDefaults env rest (proxySet env h s k0 v0).1 (proxySet env h s k0 v0).2 := by
          simp [seedDefaults, habs]
        have haux : (proxySet env h s k0 v0).1.fields = setField k0 v0 h.fields := rfl
        rw [hstep, step, haux]
        by_cases hk : k0 = k
        · subst hk
          rw [lookupField_setField_self, habs]
          simp [lookupField]
        · have hne : lookupField k (setField k0 v0 h.fields) = lookupField k h.fields :=
            lookupField_setField_ne k k0 v0 h.fields (fun e => hk e.symm)
          rw [hne]
          simp [lookupField, hk]
      · obtain ⟨w, hw⟩ : ∃ w, lookupField k0 h.fields = some w := by
          cases hcase : lookupField k0 h.fields with
          | none => exact absurd hcase habs
          | some w => exact ⟨w, rfl⟩
        have step := ih h s k
        have hstep : seedDefaults env ((k0, v0) :: rest) h s = seedDefaults env rest h s := by
          simp [seedDefaults, habs]
        rw [hstep, step]
        by_cases hk : k0 = k
        · subst hk
          rw [hw]
          simp
        · simp [lookupField, hk]

-- ---------------------------------------------------------------------------
-- Path lemmas for the deep mutation observer.
-- ---------------------------------------------------------------------------

theorem setPath_of_getPath : ∀ (p : List PathStep) (j x : Json), getPath j p = some x →
    ∀ v : Json, ∃ j2, setPath j p v = some j2 ∧ getPath j2 p = some v := by
  intro p
  induction p with
  | nil =>
      intro j x _ v
      refine ⟨v, ?_, ?_⟩ <;> simp [setPath, getPath]
  | cons st p ih =>
      intro j x h v
      cases st with
      | fieldStep k =>
          cases j with
          | obj fs =>
              cases hlk : lookupField k fs with
              | none => simp [getPath, hlk] at h
              | some w =>
                  have h2 : getPath w p = some x := by
                    simpa [getPath, hlk] using h
                  obtain ⟨w2, hset, hget⟩ := ih w x h2 v
                  refine ⟨Json.obj (setField k w2 fs), ?_, ?_⟩
                  · simp [setPath, hlk, hset]
                  · simp [getPath, lookupField_setField_self, hget]
          | null => simp [getPath] at h
          | bool b => simp [getPath] at h
          | num n => simp [getPath] at h
          | str s => simp [getPath] at h
          | arr xs => simp [getPath] at h
      | indexStep i =>
          cases j with
          | arr xs =>
              cases hlk : xs[i]? with
              | none => simp [getPath, hlk] at h
              | some w =>
                  have h2 : getPath w p = some x := by
                    simpa [getPath, hlk] using h
                  obtain ⟨w2, hset, hget⟩ := ih w x h2 v
                  have hlen : i < xs.length := (List.getElem?_eq_some_iff.mp hlk).1
                  refine ⟨Json.arr (xs.set i w2), ?_, ?_⟩
                  · simp [setPath, hlk, hset]
                  · have hgot : (xs.set i w2)[i]? = some w2 :=
                      List.getElem?_set_self (by simpa using hlen)
                    simp [getPath, hgot, hget]
          | null => simp [getPath] at h
          | bool b => simp [getPath] at h
          | num n => simp [getPath] at h
          | str s => simp [getPath] at h
          | obj fs => simp [getPath] at h

theorem setPath_obj_shape (fs : List (String × Json)) (st : PathStep) (p : List PathStep)
    (v j2 : Json) (h : setPath (Json.obj fs) (st :: p) v = some j2) :
    ∃ fs2, j2 = Json.obj fs2 := by
  cases st with
  | fieldStep k =>
      cases hlk : lookupField k fs with
      | none => simp [setPath, hlk] at h
      | some w =>
          cases hset : setPath w p v with
          | none => simp [setPath, hlk, hset] at h
          | some w2 =>
              simp [setPath, hlk, hset] at h
              exact ⟨setField k w2 fs, h.symm⟩
  | indexStep i => simp [setPath] at h

-- ---------------------------------------------------------------------------
-- Array-mutation lemmas.
-- ---------------------------------------------------------------------------

theorem arrayMutate_spec (env : Env) (h : HandleState) (s : Stores) (p : List PathStep)
    (op : ArrayOp) (xs : List Json)
    (hav : isStorageAvailable env h.target = true)
    (hsync : storeGetItem s h.target h.ns = some (docJson h))
    (hpath : getPath (docJson h) p = some (Json.arr xs)) :
    (arrayMutate env h s p op).1.ns = h.ns ∧
    (arrayMutate env h s p op).1.target = h.target ∧
    (arrayMutate env h s p op).1.defaults = h.defaults ∧
    getPath (docJson (arrayMutate env h s p op).1) p = some (Json.arr (applyArrayOp xs op)) ∧
    storeGetItem (arrayMutate env h s p op).2 h.target h.ns
      = some (docJson (arrayMutate env h s p op).1) ∧
    (arrayMutate env h s p op).2.writeLog.length
      = (if applyArrayOp xs op = xs then 0 else 1) + s.writeLog.length := by
  by_cases heq : applyArrayOp xs op = xs
  · have hres : arrayMutate env h s p op = (h, s) := by
      unfold arrayMutate
      rw [hpath]
      simp [heq]
    rw [hres]
    refine ⟨rfl, rfl, rfl, ?_, hsync, by simp [heq]⟩
    rw [heq]
    exact hpath
  · cases p with
    | nil =>
        simp [docJson, getPath] at hpath
    | cons st p2 =>
        obtain ⟨j2, hset, hget⟩ := setPath_of_getPath (st :: p2) (docJson h)
          (Json.arr xs) hpath (Json.arr (applyArrayOp xs op))
        obtain ⟨fs2, rfl⟩ := setPath_obj_shape h.fields st p2
          (Json.arr (applyArrayOp xs op)) j2 hset
        have hres : arrayMutate env h s (st :: p2) op
            = ({ h with fields := fs2 }, storeSetItem s h.target h.ns (Json.obj fs2)) := by
          unfold arrayMutate
          rw [hpath]
          have hset2 : setPath (Json.obj h.fields) (st :: p2)
              (Json.arr (applyArrayOp xs op)) = some (Json.obj fs2) := hset
          simp [heq, hav, docJson, hset2]
        rw [hres]
        refine ⟨rfl, rfl, rfl, hget, ?_, ?_⟩
        · exact storeGetItem_setItem_self s h.target h.ns (Json.obj fs2)
        · simp [storeSetItem, heq]
          omega

theorem runArrayOps_spec (env : Env) (p : List PathStep) (ops : List ArrayOp) :
    ∀ (h : HandleState) (s : Stores) (xs : List Json),
      isStorageAvailable env h.target = true →
      storeGetItem s h.target h.ns = some (docJson h) →
      getPath (docJson h) p = some (Json.arr xs) →
      (runArrayOps env p ops (h, s)).1.ns = h.ns ∧
      (runArrayOps env p ops (h, s)).1.target = h.target ∧
      getPath (docJson (runArrayOps env p ops (h, s)).1) p
        = some (Json.arr (ops.foldl applyArrayOp xs)) ∧
      storeGetItem (runArrayOps env p ops (h, s)).2 h.target h.ns
        = some (docJson (runArrayOps env p ops (h, s)).1) ∧
      (runArrayOps env p ops (h, s)).2.writeLog.length
        = effectiveCount xs ops + s.writeLog.length := by
  induction ops with
  | nil =>
      intro h s xs hav hsync hpath
      exact ⟨rfl, rfl, by simpa [runArrayOps] using hpath, hsync,
        by simp [runArrayOps, effectiveCount]⟩
  | cons op ops ih =>
      intro h s xs hav hsync hpath
      obtain ⟨hns1, ht1, _hd1, hget1, hsync1, hlog1⟩ :=
        arrayMutate_spec env h s p op xs hav hsync hpath
      have hav2 : isStorageAvailable env (arrayMutate env h s p op).1.target = true := by
        rw [ht1]; exact hav
      have hsync2 : storeGetItem (arrayMutate env h s p op).2
          (arrayMutate env h s p op).1.target (arrayMutate env h s p op).1.ns
          = some (docJson (arrayMutate env h s p op).1) := by
        rw [ht1, hns1]; exact hsync1
      have step := ih (arrayMutate env h s p op).1 (arrayMutate env h s p op).2
        (applyArrayOp xs op) hav2 hsync2 hget1
      have hfold : runArrayOps env p (op :: ops) (h, s)
          = runArrayOps env p ops ((arrayMutate env h s p op).1, (arrayMutate env h s p op).2) := by
        simp [runArrayOps]
      rw [hfold]
      obtain ⟨s1, s2, s3, s4, s5⟩ := step
      rw [ht1, hns1] at s4
      refine ⟨s1.trans hns1, s2.trans ht1, s3, s4, ?_⟩
      rw [s5, hlog1]
      simp [effectiveCount]
      omega

-- ---------------------------------------------------------------------------
-- Claim C2: the namespaced-key round-trip.
-- ---------------------------------------------------------------------------

/-- C2 (counterexample): the round-trip claim fails as stated.  For the
namespace a and the logical key [b]:c, the key is already in namespaced
form, so encoding returns it unchanged; decoding then reports the
embedded namespace b rather than a, and stripping returns c rather than
the original key. -/
theorem c2_counterexample :
    ¬ (extractNamespaceFromKey (getNamespacedKey (some "a") "[b]:c") = some "a" ∧
       extractKeyFromNamespacedKey (getNamespacedKey (some "a") "[b]:c") = "[b]:c") := by
  decide

/-- C2 (amended): encoding then decoding round-trips both the namespace
and the logical key, provided the namespace is nonempty and contains no
ECMAScript line terminator (none of LF, CR, U+2028, U+2029 — which the
regex dot never matches), and the key contains no occurrence of the
bracket-colon delimiter (in particular the key is not already in
namespaced form).  The greedy namespace regex makes the capture extend
to the last delimiter, so delimiters inside the namespace itself are
harmless. -/
theorem c2_roundtrip_amended (n key : String) (hne : n ≠ "")
    (hnl : ∀ c ∈ n.data, isLineTerminator c = false)
    (hk : hasMarker key.data = false) :
    extractNamespaceFromKey (getNamespacedKey (some n) key) = some n ∧
    extractKeyFromNamespacedKey (getNamespacedKey (some n) key) = key := by
  have hnotns : isKeyNamespaced key = false := hasMarker_false_not_namespaced key hk
  have henc : getNamespacedKey (some n) key = "[" ++ n ++ "]:" ++ key := by
    simp [getNamespacedKey, hnotns, hne]
  have hdata : ("[" ++ n ++ "]:" ++ key).data = '[' :: (n.data ++ ']' :: ':' :: key.data) := by
    simp [String.data_append]
  have hsplit := splitAtLastMarker_append n.data key.data hk hnl
  have hcapne : n.data.isEmpty = false := by
    cases hd : n.data with
    | nil => exact absurd ((string_data_empty_iff n).mp hd) hne
    | cons c cs => simp
  rw [henc]
  constructor
  · unfold extractNamespaceFromKey
    rw [hdata]
    simp [hsplit, hcapne, string_mk_data]
  · unfold extractKeyFromNamespacedKey
    rw [hdata]
    simp [hsplit, hcapne, string_mk_data]

/-- C2 (witness): the amended round-trip at the namespace a and key k. -/
theorem c2_witness :
    extractNamespaceFromKey (getNamespacedKey (some "a") "k") = some "a" ∧
    extractKeyFromNamespacedKey (getNamespacedKey (some "a") "k") = "k" :=
  c2_roundtrip_amended "a" "k" (by decide) (by decide) (by decide)

-- ---------------------------------------------------------------------------
-- Claim C3: creation-time default seeding.
-- ---------------------------------------------------------------------------

/-- C3: creation-time seeding applies a default entry only when the
field is absent from the stored namespace document: every field of the
loaded document keeps its stored value (the store wins), every default
key absent from it gets its default value, and the seeded document is
persisted back under the namespace key. -/
theorem c3_defaults_seed_absent_only (env : Env) (t : StorageTarget) (ns : String)
    (fs0 ds : List (String × Json)) (s : Stores) (h : HandleState) (s2 : Stores)
    (hav : isStorageAvailable env t = true)
    (hstore : storeGetItem s t ns = some (Json.obj fs0))
    (hcr : createProxy env t ns (some ds) s = Except.ok (h, s2)) :
    (∀ k, lookupField k h.fields = (lookupField k fs0).or (lookupField k ds)) ∧
    storeGetItem s2 t ns = some (docJson h) ∧
    h.ns = ns ∧ h.target = t ∧ h.defaults = some ds := by
  by_cases hns : ns = ""
  · simp [createProxy, hns] at hcr
  · have hinit : initDataStorage env ns t s = s := by
      simp [initDataStorage, hav, hstore]
    have hload : getDataFromStorage env ns t s = Json.obj fs0 := by
      simp [getDataFromStorage, hav, hstore]
    simp only [createProxy, if_neg hns, hinit, hload, spreadFields] at hcr
    set h0 : HandleState := HandleState.mk fs0 ns t none with hh0
    simp only [Except.ok.injEq, Prod.mk.injEq] at hcr
    obtain ⟨hh, hs2⟩ := hcr
    have hmeta := seedDefaults_meta env ds h0 s
    have hlook := seedDefaults_lookup env ds h0 s
    have hsync0 : Synced env h0 s := by
      intro _
      simpa [docJson] using hstore
    have hsynced := seedDefaults_synced env ds h0 s hsync0
    have hfields : h.fields = (seedDefaults env ds h0 s).1.fields := by
      rw [← hh]
    have hns2 : h.ns = ns := by
      rw [← hh]
      show (seedDefaults env ds h0 s).1.ns = ns
      rw [hmeta.1]
    have ht2 : h.target = t := by
      rw [← hh]
      show (seedDefaults env ds h0 s).1.target = t
      rw [hmeta.2.1]
    have hd2 : h.defaults = some ds := by
      rw [← hh]
    refine ⟨?_, ?_, hns2, ht2, hd2⟩
    · intro k
      rw [hfields, hlook k]
    · have := hsynced (by rw [hmeta.2.1]; exact hav)
      rw [hmeta.2.1, hmeta.1] at this
      rw [← hs2]
      have hdoc : docJson h = docJson (seedDefaults env ds h0 s).1 := by
        simp [docJson, hfields]
      rw [hdoc]
      exact this

/-- C3 (witness): over a store holding a document with alreadySet 999,
creating a handle with defaults alreadySet 123 and fresh x yields 999
for alreadySet (the stored value wins) and x for fresh (the default is
applied), and the seeded document is persisted. -/
theorem c3_witness :
    lookupField "alreadySet"
        (okPair (createProxy demoEnv StorageTarget.localStorage "ns"
          (some [("alreadySet", Json.num 123), ("fresh", Json.str "x")]) demoStores1)).1.fields
      = some (Json.num 999) ∧
    lookupField "fresh"
        (okPair (createProxy demoEnv StorageTarget.localStorage "ns"
          (some [("alreadySet", Json.num 123), ("fresh", Json.str "x")]) demoStores1)).1.fields
      = some (Json.str "x") ∧
    storeGetItem
        (okPair (createProxy demoEnv StorageTarget.localStorage "ns"
          (some [("alreadySet", Json.num 123), ("fresh", Json.str "x")]) demoStores1)).2
        StorageTarget.localStorage "ns"
      = some (docJson (okPair (createProxy demoEnv StorageTarget.localStorage "ns"
          (some [("alreadySet", Json.num 123), ("fresh", Json.str "x")]) demoStores1)).1) := by
  obtain ⟨hlook, hsync, _, _, _⟩ := c3_defaults_seed_absent_only demoEnv
    StorageTarget.localStorage "ns" [("alreadySet", Json.num 999)]
    [("alreadySet", Json.num 123), ("fresh", Json.str "x")] demoStores1
    (okPair (createProxy demoEnv StorageTarget.localStorage "ns"
      (some [("alreadySet", Json.num 123), ("fresh", Json.str "x")]) demoStores1)).1
    (okPair (createProxy demoEnv StorageTarget.localStorage "ns"
      (some [("alreadySet", Json.num 123), ("fresh", Json.str "x")]) demoStores1)).2
    (by decide) (by decide) (by rfl)
  refine ⟨?_, ?_, hsync⟩
  · rw [hlook "alreadySet"]
    decide
  · rw [hlook "fresh"]
    decide

-- ---------------------------------------------------------------------------
-- Claim C4: restoreDefaults re-applies every default unconditionally.
-- ---------------------------------------------------------------------------

/-- C4: for a handle created with a default-value set, restoreDefaults
assigns every entry of that set through the proxy unconditionally, so
afterwards every defaulted field reads as its default value through the
handle, holds its default value in the document, and the resulting
document is persisted — defaults now take priority over whatever was
stored, the inverse precedence of creation-time seeding. -/
theorem c4_restore_overwrites (env : Env) (h : HandleState) (s : Stores)
    (ds : List (String × Json)) (h2 : HandleState) (s2 : Stores)
    (hav : isStorageAvailable env h.target = true)
    (hsync : storeGetItem s h.target h.ns = some (docJson h))
    (hds : h.defaults = some ds)
    (hnd : (ds.map Prod.fst).Nodup)
    (hr : restoreDefaults env h s = Except.ok (h2, s2)) :
    (∀ k v, (k, v) ∈ ds → proxyGet h2 k = v ∧ lookupField k h2.fields = some v) ∧
    storeGetItem s2 h.target h.ns = some (docJson h2) := by
  unfold restoreDefaults at hr
  rw [hds] at hr
  simp only [Except.ok.injEq, Prod.ext_iff] at hr
  obtain ⟨hh, hs⟩ := hr
  constructor
  · intro k v hm
    have hl := foldSet_lookup_mem env ds hnd (h, s) k v hm
    rw [hh] at hl
    exact ⟨by simp [proxyGet, hl], hl⟩
  · have hm1 : (foldSet env ds (h, s)).1.ns = h.ns := (foldSet_meta env ds (h, s)).1
    have hm2 : (foldSet env ds (h, s)).1.target = h.target := (foldSet_meta env ds (h, s)).2.1
    have hsynced := foldSet_synced env ds (h, s) (fun _ => hsync)
    have hthis := hsynced (by rw [hm2]; exact hav)
    rw [hm2, hm1, hh, hs] at hthis
    exact hthis

/-- C4 (witness): after restoreDefaults on the handle created over a
store holding alreadySet 999 with default alreadySet 123, the field
reads back as 123, overwriting the stored 999. -/
theorem c4_witness :
    proxyGet (okPair (restoreDefaults demoEnv
        (okPair (createProxy demoEnv StorageTarget.localStorage "ns"
          (some [("alreadySet", Json.num 123), ("fresh", Json.str "x")]) demoStores1)).1
        (okPair (createProxy demoEnv StorageTarget.localStorage "ns"
          (some [("alreadySet", Json.num 123), ("fresh", Json.str "x")]) demoStores1)).2)).1
      "alreadySet" = Json.num 123 := by
  obtain ⟨hmem, _⟩ := c4_restore_overwrites demoEnv
    (okPair (createProxy demoEnv StorageTarget.localStorage "ns"
      (some [("alreadySet", Json.num 123), ("fresh", Json.str "x")]) demoStores1)).1
    (okPair (createProxy demoEnv StorageTarget.localStorage "ns"
      (some [("alreadySet", Json.num 123), ("fresh", Json.str "x")]) demoStores1)).2
    [("alreadySet", Json.num 123), ("fresh", Json.str "x")]
    (okPair (restoreDefaults demoEnv
      (okPair (createProxy demoEnv StorageTarget.localStorage "ns"
        (some [("alreadySet", Json.num 123), ("fresh", Json.str "x")]) demoStores1)).1
      (okPair (createProxy demoEnv StorageTarget.localStorage "ns"
        (some [("alreadySet", Json.num 123), ("fresh", Json.str "x")]) demoStores1)).2)).1
    (okPair (restoreDefaults demoEnv
      (okPair (createProxy demoEnv StorageTarget.localStorage "ns"
        (some [("alreadySet", Json.num 123), ("fresh", Json.str "x")]) demoStores1)).1
      (okPair (createProxy demoEnv StorageTarget.localStorage "ns"
        (some [("alreadySet", Json.num 123), ("fresh", Json.str "x")]) demoStores1)).2)).2
    (by decide) (by decide) (by decide) (by decide) (by rfl)
  exact (hmem "alreadySet" (Json.num 123) (by decide)).1

-- ---------------------------------------------------------------------------
-- Claim C6: clearStorage empties the namespace.
-- ---------------------------------------------------------------------------

/-- C6: clearStorage deletes every enumerable logical key of the handle
through the proxy delete path: afterwards the document has no fields,
every previously set field reads back as the null sentinel, the
persisted namespace document is empty, and the reserved symbol-keyed
attributes (namespace, store target, default set) survive on the
in-memory handle. -/
theorem c6_clear_empties (env : Env) (h : HandleState) (s : Stores)
    (hav : isStorageAvailable env h.target = true)
    (hsync : storeGetItem s h.target h.ns = some (docJson h)) :
    (clearStorage env h s).1.fields = [] ∧
    (∀ k, proxyGet (clearStorage env h s).1 k = Json.null) ∧
    storeGetItem (clearStorage env h s).2 h.target h.ns = some (Json.obj []) ∧
    (clearStorage env h s).1.ns = h.ns ∧
    (clearStorage env h s).1.target = h.target ∧
    (clearStorage env h s).1.defaults = h.defaults := by
  have hfields : (clearStorage env h s).1.fields = [] := by
    show (foldDelete env (ownKeys h) (h, s)).1.fields = []
    rw [foldDelete_fields env (ownKeys h) (h, s)]
    rw [List.filter_eq_nil_iff]
    intro kv hm
    have hkm : kv.1 ∈ ownKeys h := List.mem_map_of_mem Prod.fst hm
    simp [hkm]
  have hm1 : (clearStorage env h s).1.ns = h.ns :=
    (foldDelete_meta env (ownKeys h) (h, s)).1
  have hm2 : (clearStorage env h s).1.target = h.target :=
    (foldDelete_meta env (ownKeys h) (h, s)).2.1
  have hm3 : (clearStorage env h s).1.defaults = h.defaults :=
    (foldDelete_meta env (ownKeys h) (h, s)).2.2
  refine ⟨hfields, ?_, ?_, hm1, hm2, hm3⟩
  · intro k
    simp [proxyGet, hfields, lookupField]
  · have hsynced : Synced env (clearStorage env h s).1 (clearStorage env h s).2 :=
      foldDelete_synced env (ownKeys h) (h, s) (fun _ => hsync)
    have hthis := hsynced (by rw [hm2]; exact hav)
    rw [hm2, hm1] at hthis
    have hdoc : docJson (clearStorage env h s).1 = Json.obj [] := by
      simp [docJson, hfields]
    rw [hdoc] at hthis
    exact hthis

/-- C6 (witness): clearing the handle created over a store holding one
field removes the field from memory and leaves an empty persisted
document. -/
theorem c6_witness :
    proxyGet (clearStorage demoEnv
        (okPair (createProxy demoEnv StorageTarget.localStorage "ns" none demoStores1)).1
        (okPair (createProxy demoEnv StorageTarget.localStorage "ns" none demoStores1)).2).1
      "alreadySet" = Json.null ∧
    storeGetItem (clearStorage demoEnv
        (okPair (createProxy demoEnv StorageTarget.localStorage "ns" none demoStores1)).1
        (okPair (createProxy demoEnv StorageTarget.localStorage "ns" none demoStores1)).2).2
      StorageTarget.localStorage "ns" = some (Json.obj []) := by
  obtain ⟨_, hget, hstore2, _, _, _⟩ := c6_clear_empties demoEnv
    (okPair (createProxy demoEnv StorageTarget.localStorage "ns" none demoStores1)).1
    (okPair (createProxy demoEnv StorageTarget.localStorage "ns" none demoStores1)).2
    (by decide) (by decide)
  exact ⟨hget "alreadySet", hstore2⟩

-- ---------------------------------------------------------------------------
-- Claim C7: graceful degradation when the store is unavailable.
-- ---------------------------------------------------------------------------

theorem arrayMutate_stores_unavail (env : Env) (h : HandleState) (s : Stores)
    (p : List PathStep) (op : ArrayOp) (hav : isStorageAvailable env h.target = false) :
    (arrayMutate env h s p op).2 = s := by
  unfold arrayMutate
  split
  · rename_i xs heq2
    by_cases hxe : applyArrayOp xs op = xs
    · simp [hxe]
    · simp [hxe, hav]
      split <;> rfl
  · rfl

/-- C7: when the availability probe reports a store target unavailable,
a handle over that target loads its document as empty, absent fields
read as the null sentinel, and no operation on the handle ever writes
to the backing store or throws because of the unavailability: raw reads
see an empty document, creation, assignments, deletions, observed array
mutations, clearStorage, restoreDefaults and the cross-context listener
all leave the host stores untouched, and verifyCache still reports
success. -/
theorem c7_unavailable_degrades (env : Env) (t : StorageTarget)
    (hna : isStorageAvailable env t = false) :
    (∀ ns s, getDataFromStorage env ns t s = Json.obj []) ∧
    (∀ ns ds h s s2, createProxy env t ns ds s = Except.ok (h, s2) → s2 = s) ∧
    (∀ ns h s s2, createProxy env t ns none s = Except.ok (h, s2) →
       h.fields = [] ∧ ∀ k, proxyGet h k = Json.null) ∧
    (∀ h s k v, h.target = t → (proxySet env h s k v).2 = s) ∧
    (∀ h s k, h.target = t → (proxyDelete env h s k).2 = s) ∧
    (∀ h s p op, h.target = t → (arrayMutate env h s p op).2 = s) ∧
    (∀ h s, h.target = t → (clearStorage env h s).2 = s) ∧
    (∀ h s ds, h.target = t → h.defaults = some ds →
       restoreDefaults env h s = Except.ok ((foldSet env ds (h, s)).1, s)) ∧
    (∀ h s seed, h.target = t → seed.data.all (fun c => c.toNat < 256) = true →
       ∃ h2, verifyCache env h s seed = Except.ok (true, h2, s)) ∧
    (∀ h s ev, h.target = t → handleStorageEvent env h s ev = (h, s)) := by
  have hget : ∀ ns s, getDataFromStorage env ns t s = Json.obj [] := by
    intro ns s
    simp [getDataFromStorage, hna]
  refine ⟨hget, ?_, ?_, ?_, ?_, ?_, ?_, ?_, ?_, ?_⟩
  · intro ns ds h s s2 hcr
    by_cases hns : ns = ""
    · simp [createProxy, hns] at hcr
    · have hinit : initDataStorage env ns t s = s := by
        simp [initDataStorage, hna]
      simp only [createProxy, if_neg hns, hinit, hget, spreadFields] at hcr
      cases ds with
      | none =>
          simp only [Except.ok.injEq, Prod.ext_iff] at hcr
          exact hcr.2.symm
      | some ds =>
          simp only [Except.ok.injEq, Prod.ext_iff] at hcr
          have := seedDefaults_stores_unavail env ds
            (HandleState.mk [] ns t none) s hna
          rw [← hcr.2, this]
  · intro ns h s s2 hcr
    by_cases hns : ns = ""
    · simp [createProxy, hns] at hcr
    · have hinit : initDataStorage env ns t s = s := by
        simp [initDataStorage, hna]
      simp only [createProxy, if_neg hns, hinit, hget, spreadFields] at hcr
      simp only [Except.ok.injEq, Prod.ext_iff] at hcr
      have hf : h.fields = [] := by rw [← hcr.1]
      exact ⟨hf, fun k => by simp [proxyGet, hf, lookupField]⟩
  · intro h s k v ht
    exact proxySet_stores_unavail env h s k v (by rw [ht]; exact hna)
  · intro h s k ht
    exact proxyDelete_stores_unavail env h s k (by rw [ht]; exact hna)
  · intro h s p op ht
    exact arrayMutate_stores_unavail env h s p op (by rw [ht]; exact hna)
  · intro h s ht
    exact foldDelete_stores_unavail env (ownKeys h) (h, s) (by rw [ht]; exact hna)
  · intro h s ds ht hds
    have h2 : (foldSet env ds (h, s)).2 = s :=
      foldSet_stores_unavail env ds (h, s) (by rw [ht]; exact hna)
    have hpair : foldSet env ds (h, s) = ((foldSet env ds (h, s)).1, s) :=
      Prod.ext_iff.mpr ⟨rfl, h2⟩
    unfold restoreDefaults
    rw [hds]
    show Except.ok (foldSet env ds (h, s)) = Except.ok ((foldSet env ds (h, s)).1, s)
    exact congrArg Except.ok hpair
  · intro h s seed ht hlat
    have hdata : getDataFromStorage env h.ns h.target s = Json.obj [] := by
      rw [ht]
      exact hget h.ns s
    have hset2 : (proxySet env h s storageProxyIntegrityKey
        (Json.str (String.mk (btoaBytes (seed.data.map Char.toNat))))).2 = s :=
      proxySet_stores_unavail env h s _ _ (by rw [ht]; exact hna)
    refine ⟨(proxySet env h s storageProxyIntegrityKey
        (Json.str (String.mk (btoaBytes (seed.data.map Char.toNat))))).1, ?_⟩
    unfold verifyCache
    rw [hdata]
    simp [jsonField, lookupField, btoaStr, hlat, hset2]
  · intro h s ev ht
    simp [handleStorageEvent, ht, hna]

-- ---------------------------------------------------------------------------
-- Claim C8: cross-context sync is scoped to namespace and store target.
-- ---------------------------------------------------------------------------

/-- C8: a storage-change notification whose key differs from the
namespace of a handle, or whose store area differs from the target of
the handle, leaves that handle (and the stores) completely unchanged;
only a notification matching both, with the store available, reloads the
namespace document and applies it field by field with overwrite
semantics: every field of the reloaded document overwrites the handle
field of the same name, and all other handle fields are untouched. -/
theorem c8_storage_event_scoped (env : Env) (h : HandleState) (s : Stores)
    (ev : StorageEvent) :
    (ev.key ≠ some h.ns ∨ ev.storageArea ≠ h.target →
      handleStorageEvent env h s ev = (h, s)) ∧
    (∀ fs, isStorageAvailable env h.target = true → ev.key = some h.ns →
      ev.storageArea = h.target →
      getDataFromStorage env h.ns h.target s = Json.obj fs →
      (fs.map Prod.fst).Nodup →
      (∀ k v, (k, v) ∈ fs →
        lookupField k (handleStorageEvent env h s ev).1.fields = some v) ∧
      (∀ k, k ∉ fs.map Prod.fst →
        lookupField k (handleStorageEvent env h s ev).1.fields
          = lookupField k h.fields)) := by
  constructor
  · intro hdiff
    unfold handleStorageEvent
    rcases hdiff with hk | ha
    · simp [hk]
    · simp [ha]
  · intro fs hav hk ha hdata hnd
    have hrun : handleStorageEvent env h s ev = foldSet env fs (h, s) := by
      unfold handleStorageEvent
      rw [if_pos ⟨hav, hk, ha⟩, hdata]
      rfl
    rw [hrun]
    exact ⟨fun k v hm => foldSet_lookup_mem env fs hnd (h, s) k v hm,
      fun k hk2 => foldSet_lookup_notmem env fs (h, s) k hk2⟩

/-- C8 (witness): on the handle over namespace ns in localStorage, a
notification for a different key changes nothing, while a matching
notification applies the stored document onto the handle. -/
theorem c8_witness :
    handleStorageEvent demoEnv
        (okPair (createProxy demoEnv StorageTarget.localStorage "ns" none demoStores1)).1
        demoStores1 (StorageEvent.mk (some "other") StorageTarget.localStorage)
      = ((okPair (createProxy demoEnv StorageTarget.localStorage "ns" none demoStores1)).1,
          demoStores1) ∧
    lookupField "alreadySet"
        (handleStorageEvent demoEnv
          (okPair (createProxy demoEnv StorageTarget.localStorage "ns" none demoStores1)).1
          demoStores1 (StorageEvent.mk (some "ns") StorageTarget.localStorage)).1.fields
      = some (Json.num 999) := by
  constructor
  · exact (c8_storage_event_scoped demoEnv
      (okPair (createProxy demoEnv StorageTarget.localStorage "ns" none demoStores1)).1
      demoStores1 (StorageEvent.mk (some "other") StorageTarget.localStorage)).1
      (Or.inl (by decide))
  · exact ((c8_storage_event_scoped demoEnv
      (okPair (createProxy demoEnv StorageTarget.localStorage "ns" none demoStores1)).1
      demoStores1 (StorageEvent.mk (some "ns") StorageTarget.localStorage)).2
      [("alreadySet", Json.num 999)] (by decide) (by decide) (by decide) (by decide)
      (by decide)).1 "alreadySet" (Json.num 999) (by decide)

-- ---------------------------------------------------------------------------
-- Claim C10: restoreDefaults on a handle created without defaults.
-- ---------------------------------------------------------------------------

/-- C10: a handle created without a defaults argument never gets the
default-value symbol attached, and restoreDefaults on such a handle
throws a TypeError rather than acting as a no-op: the proxy get trap
turns the absent symbol slot into null and enumerating the entries of
null raises a TypeError. -/
theorem c10_restore_without_defaults_throws :
    (∀ (env : Env) (t : StorageTarget) (ns : String) (s : Stores)
        (h : HandleState) (s2 : Stores),
      createProxy env t ns none s = Except.ok (h, s2) → h.defaults = none) ∧
    (∀ (env : Env) (h : HandleState) (s : Stores), h.defaults = none →
      restoreDefaults env h s
        = Except.error (JsError.typeError "Cannot convert undefined or null to object")) := by
  constructor
  · intro env t ns s h s2 hcr
    by_cases hns : ns = ""
    · simp [createProxy, hns] at hcr
    · simp only [createProxy, if_neg hns] at hcr
      simp only [Except.ok.injEq, Prod.ext_iff] at hcr
      rw [← hcr.1]
  · intro env h s hds
    unfold restoreDefaults
    rw [hds]

/-- C10 (witness): restoring defaults on a handle created without
defaults throws the TypeError. -/
theorem c10_witness :
    restoreDefaults demoEnv
        (okPair (createProxy demoEnv StorageTarget.localStorage "ns" none demoStores0)).1
        (okPair (createProxy demoEnv StorageTarget.localStorage "ns" none demoStores0)).2
      = Except.error (JsError.typeError "Cannot convert undefined or null to object") := by
  apply c10_restore_without_defaults_throws.2
  exact c10_restore_without_defaults_throws.1 demoEnv StorageTarget.localStorage "ns"
    demoStores0 _ _ (by rfl)

-- ---------------------------------------------------------------------------
-- Claim C9: enumeration and the hidden attributes.
-- ---------------------------------------------------------------------------

/-- C9 (counterexample): the claim fails as stated for the integrity
seed slot.  After verifyIntegrity establishes a baseline on a fresh
handle, the reserved integrity key is stored as an ordinary string key
of the document and does show up in normal key enumeration. -/
theorem c9_counterexample :
    "__storageProxyIntegrity" ∈ ownKeys
      (vcTriple (verifyCache demoEnv
        (okPair (createProxy demoEnv StorageTarget.localStorage "ns" none demoStores0)).1
        (okPair (createProxy demoEnv StorageTarget.localStorage "ns" none demoStores0)).2
        "A")).2.1 := by
  decide

/-- C9 (amended): the symbol-keyed attributes (owning namespace, owning
store target, default-value set) are carried outside the string-keyed
document and are never touched by enumeration or by verifyIntegrity;
the integrity seed slot, however, is an ordinary string key: when
verifyIntegrity stores a baseline it appends exactly that key to the
enumeration of the handle. -/
theorem c9_enumeration_amended (env : Env) (h : HandleState) (s : Stores) (seed : String)
    (hmem : lookupField storageProxyIntegrityKey h.fields = none)
    (hnoseed : jsonField (getDataFromStorage env h.ns h.target s)
      storageProxyIntegrityKey = none)
    (hlat : seed.data.all (fun c => c.toNat < 256) = true) :
    ∃ h2 s2, verifyCache env h s seed = Except.ok (true, h2, s2) ∧
      ownKeys h2 = ownKeys h ++ [storageProxyIntegrityKey] ∧
      h2.ns = h.ns ∧ h2.target = h.target ∧ h2.defaults = h.defaults := by
  refine ⟨(proxySet env h s storageProxyIntegrityKey
      (Json.str (String.mk (btoaBytes (seed.data.map Char.toNat))))).1,
    (proxySet env h s storageProxyIntegrityKey
      (Json.str (String.mk (btoaBytes (seed.data.map Char.toNat))))).2,
    ?_, ?_, rfl, rfl, rfl⟩
  · simp only [verifyCache]
    rw [hnoseed]
    simp [btoaStr, hlat]
  · show (setField storageProxyIntegrityKey
        (Json.str (String.mk (btoaBytes (seed.data.map Char.toNat)))) h.fields).map Prod.fst
      = ownKeys h ++ [storageProxyIntegrityKey]
    rw [setField_of_absent _ _ _ hmem]
    simp [ownKeys]

/-- C9 (witness): the amended statement at a fresh handle and the seed
A: verifyCache succeeds and the enumeration gains exactly the reserved
integrity key. -/
theorem c9_witness :
    ∃ h2 s2, verifyCache demoEnv
        (okPair (createProxy demoEnv StorageTarget.localStorage "ns" none demoStores0)).1
        (okPair (createProxy demoEnv StorageTarget.localStorage "ns" none demoStores0)).2
        "A" = Except.ok (true, h2, s2) ∧
      ownKeys h2 = ownKeys
          (okPair (createProxy demoEnv StorageTarget.localStorage "ns" none demoStores0)).1
        ++ [storageProxyIntegrityKey] ∧
      h2.ns = (okPair (createProxy demoEnv StorageTarget.localStorage "ns" none demoStores0)).1.ns ∧
      h2.target = (okPair (createProxy demoEnv StorageTarget.localStorage "ns" none demoStores0)).1.target ∧
      h2.defaults = (okPair (createProxy demoEnv StorageTarget.localStorage "ns" none demoStores0)).1.defaults :=
  c9_enumeration_amended demoEnv
    (okPair (createProxy demoEnv StorageTarget.localStorage "ns" none demoStores0)).1
    (okPair (createProxy demoEnv StorageTarget.localStorage "ns" none demoStores0)).2
    "A" (by decide) (by decide) (by decide)

-- ---------------------------------------------------------------------------
-- Claim C5: the integrity-seed verification sequence.
-- ---------------------------------------------------------------------------

/-- C5 (counterexample): the claim fails as stated when the first seed
is the empty string.  The empty seed encodes to the empty string, which
is falsy, so the stored baseline is treated as absent: the third call of
the sequence verify(h, A); verify(h, A); verify(h, B) with A empty and B
distinct from A returns true where the claim demands false. -/
theorem c5_counterexample :
    (vcTriple (verifyCache demoEnv
      (vcTriple (verifyCache demoEnv
        (okPair (createProxy demoEnv StorageTarget.localStorage "ns" none demoStores0)).1
        (okPair (createProxy demoEnv StorageTarget.localStorage "ns" none demoStores0)).2
        "")).2.1
      (vcTriple (verifyCache demoEnv
        (okPair (createProxy demoEnv StorageTarget.localStorage "ns" none demoStores0)).1
        (okPair (createProxy demoEnv StorageTarget.localStorage "ns" none demoStores0)).2
        "")).2.2
      "b")).1 = true := by
  decide

/-- C5 (amended): verifyCache reads the integrity field from the raw
store; when no seed is stored it persists the encoded seed and returns
true, and when a previously stored nonempty encoded seed exists it
returns whether it decodes to exactly the probe seed.  Hence for a
nonempty latin-1 seed A and any B distinct from A, on a handle with no
stored or in-memory baseline over an available store, the sequence
verify(A); verify(A); verify(B) returns true, true, false, and the
mismatch returns false rather than throwing.  (For the empty seed the
encoded baseline is falsy and is treated as absent, so the sequence
degenerates to always-true.) -/
theorem c5_verify_sequence_amended (env : Env) (h : HandleState) (s : Stores)
    (A B : String)
    (hav : isStorageAvailable env h.target = true)
    (hlat : A.data.all (fun c => c.toNat < 256) = true)
    (hAne : A ≠ "")
    (hAB : A ≠ B)
    (hmem : lookupField storageProxyIntegrityKey h.fields = none)
    (hnoseed : jsonField (getDataFromStorage env h.ns h.target s)
      storageProxyIntegrityKey = none) :
    ∃ h1 s1, verifyCache env h s A = Except.ok (true, h1, s1) ∧
      verifyCache env h1 s1 A = Except.ok (true, h1, s1) ∧
      verifyCache env h1 s1 B = Except.ok (false, h1, s1) := by
  have henc : btoaStr A = some (String.mk (btoaBytes (A.data.map Char.toNat))) := by
    simp [btoaStr, hlat]
  set enc : String := String.mk (btoaBytes (A.data.map Char.toNat)) with hencdef
  have hencne : enc ≠ "" := btoaStr_ne_empty A enc henc hAne
  have hdec : atobStr enc = some A := atobStr_btoaStr A enc henc
  refine ⟨(proxySet env h s storageProxyIntegrityKey (Json.str enc)).1,
    (proxySet env h s storageProxyIntegrityKey (Json.str enc)).2, ?_, ?_, ?_⟩
  · simp only [verifyCache]
    rw [hnoseed]
    simp [btoaStr, hlat]
  all_goals {
    have hfire : ¬ (lookupField storageProxyIntegrityKey h.fields = some (Json.str enc)) := by
      rw [hmem]
      simp
    have hs1 : (proxySet env h s storageProxyIntegrityKey (Json.str enc)).2
        = storeSetItem s h.target h.ns
            (docJson (proxySet env h s storageProxyIntegrityKey (Json.str enc)).1) := by
      simp [proxySet, hfire, hav]
    have hdata2 : getDataFromStorage env
        (proxySet env h s storageProxyIntegrityKey (Json.str enc)).1.ns
        (proxySet env h s storageProxyIntegrityKey (Json.str enc)).1.target
        (proxySet env h s storageProxyIntegrityKey (Json.str enc)).2
        = docJson (proxySet env h s storageProxyIntegrityKey (Json.str enc)).1 := by
      show getDataFromStorage env h.ns h.target
          (proxySet env h s storageProxyIntegrityKey (Json.str enc)).2
        = docJson (proxySet env h s storageProxyIntegrityKey (Json.str enc)).1
      rw [hs1]
      simp [getDataFromStorage, hav, storeGetItem_setItem_self]
    have hfield2 : jsonField
        (docJson (proxySet env h s storageProxyIntegrityKey (Json.str enc)).1)
        storageProxyIntegrityKey = some (Json.str enc) := by
      show jsonField (Json.obj (setField storageProxyIntegrityKey (Json.str enc) h.fields))
        storageProxyIntegrityKey = some (Json.str enc)
      simp [jsonField, lookupField_setField_self]
    simp only [verifyCache]
    rw [hdata2, hfield2]
    simp only [jsTruthy]
    rw [if_pos (by simpa using hencne)]
    show (match atobStr enc with
      | none => Except.error JsError.invalidCharacter
      | some decodedSeed => _) = _
    rw [hdec]
    simp [hAne, hAB]
  }

/-- C5 (witness): the amended sequence at the nonempty seeds a and b on
a fresh handle: true, true, false. -/
theorem c5_witness :
    ∃ h1 s1, verifyCache demoEnv
        (okPair (createProxy demoEnv StorageTarget.localStorage "ns" none demoStores0)).1
        (okPair (createProxy demoEnv StorageTarget.localStorage "ns" none demoStores0)).2
        "a" = Except.ok (true, h1, s1) ∧
      verifyCache demoEnv h1 s1 "a" = Except.ok (true, h1, s1) ∧
      verifyCache demoEnv h1 s1 "b" = Except.ok (false, h1, s1) :=
  c5_verify_sequence_amended demoEnv
    (okPair (createProxy demoEnv StorageTarget.localStorage "ns" none demoStores0)).1
    (okPair (createProxy demoEnv StorageTarget.localStorage "ns" none demoStores0)).2
    "a" "b" (by decide) (by decide) (by decide) (by decide) (by decide) (by decide)

-- ---------------------------------------------------------------------------
-- Claim C1: nested array mutations are observed and persisted once each.
-- ---------------------------------------------------------------------------

/-- C1: for a handle over an available store whose persisted document
matches the in-memory document, and a nested array reached from the
handle at some path, every sequence of array mutations (push, pop,
shift, splice) applied through the deep observer keeps the persisted
namespace document identical to the in-memory one — so the stored value
deserializes to a document whose projection at the path is exactly the
in-memory sequence, same order and elements — and extends the store
write log by exactly one entry per mutation that changes the array:
each operation is observed and persisted exactly once. -/
theorem c1_array_mutations_persist (env : Env) (h : HandleState) (s : Stores)
    (p : List PathStep) (ops : List ArrayOp) (xs : List Json)
    (hav : isStorageAvailable env h.target = true)
    (hsync : storeGetItem s h.target h.ns = some (docJson h))
    (hpath : getPath (docJson h) p = some (Json.arr xs)) :
    getPath (docJson (runArrayOps env p ops (h, s)).1) p
      = some (Json.arr (ops.foldl applyArrayOp xs)) ∧
    storeGetItem (runArrayOps env p ops (h, s)).2 h.target h.ns
      = some (docJson (runArrayOps env p ops (h, s)).1) ∧
    (∃ doc, storeGetItem (runArrayOps env p ops (h, s)).2 h.target h.ns = some doc ∧
      getPath doc p = some (Json.arr (ops.foldl applyArrayOp xs))) ∧
    (runArrayOps env p ops (h, s)).2.writeLog.length
      = effectiveCount xs ops + s.writeLog.length := by
  obtain ⟨_, _, hproj, hstore, hlog⟩ := runArrayOps_spec env p ops h s xs hav hsync hpath
  exact ⟨hproj, hstore, ⟨docJson (runArrayOps env p ops (h, s)).1, hstore, hproj⟩, hlog⟩

/-- C1 (witness): on a handle whose document holds the nested array
[1, 2, 3] under arr, the sequence push 4, pop, shift, splice 0 1 [9]
leaves the in-memory array [9, 3], the persisted document projects to
the same array, and exactly four writes were logged. -/
theorem c1_witness :
    getPath (docJson (runArrayOps demoEnv [PathStep.fieldStep "arr"]
        [ArrayOp.push (Json.num 4), ArrayOp.pop, ArrayOp.shift,
          ArrayOp.splice 0 1 [Json.num 9]]
        ((okPair (createProxy demoEnv StorageTarget.localStorage "ns" none demoStoresArr)).1,
          (okPair (createProxy demoEnv StorageTarget.localStorage "ns" none demoStoresArr)).2)).1)
      [PathStep.fieldStep "arr"]
      = some (Json.arr [Json.num 9, Json.num 3]) ∧
    storeGetItem (runArrayOps demoEnv [PathStep.fieldStep "arr"]
        [ArrayOp.push (Json.num 4), ArrayOp.pop, ArrayOp.shift,
          ArrayOp.splice 0 1 [Json.num 9]]
        ((okPair (createProxy demoEnv StorageTarget.localStorage "ns" none demoStoresArr)).1,
          (okPair (createProxy demoEnv StorageTarget.localStorage "ns" none demoStoresArr)).2)).2
      StorageTarget.localStorage "ns"
      = some (docJson (runArrayOps demoEnv [PathStep.fieldStep "arr"]
        [ArrayOp.push (Json.num 4), ArrayOp.pop, ArrayOp.shift,
          ArrayOp.splice 0 1 [Json.num 9]]
        ((okPair (createProxy demoEnv StorageTarget.localStorage "ns" none demoStoresArr)).1,
          (okPair (createProxy demoEnv StorageTarget.localStorage "ns" none demoStoresArr)).2)).1) ∧
    (runArrayOps demoEnv [PathStep.fieldStep "arr"]
        [ArrayOp.push (Json.num 4), ArrayOp.pop, ArrayOp.shift,
          ArrayOp.splice 0 1 [Json.num 9]]
        ((okPair (createProxy demoEnv StorageTarget.localStorage "ns" none demoStoresArr)).1,
          (okPair (createProxy demoEnv StorageTarget.localStorage "ns" none demoStoresArr)).2)).2.writeLog.length
      = 4 + (okPair (createProxy demoEnv StorageTarget.localStorage "ns" none
          demoStoresArr)).2.writeLog.length := by
  obtain ⟨hproj, hstore, _, hlog⟩ := c1_array_mutations_persist demoEnv
    (okPair (createProxy demoEnv StorageTarget.localStorage "ns" none demoStoresArr)).1
    (okPair (createProxy demoEnv StorageTarget.localStorage "ns" none demoStoresArr)).2
    [PathStep.fieldStep "arr"]
    [ArrayOp.push (Json.num 4), ArrayOp.pop, ArrayOp.shift, ArrayOp.splice 0 1 [Json.num 9]]
    [Json.num 1, Json.num 2, Json.num 3]
    (by decide) (by decide) (by decide)
  exact ⟨hproj, hstore, hlog⟩

/-- C7 (witness): with both stores probed unavailable, a raw read sees
an empty document, an assignment through a handle leaves the stores
untouched, and a matching cross-context notification is a no-op. -/
theorem c7_witness :
    getDataFromStorage demoEnvDown "ns" StorageTarget.localStorage demoStores1
      = Json.obj [] ∧
    (proxySet demoEnvDown
        (okPair (createProxy demoEnvDown StorageTarget.localStorage "ns" none demoStores1)).1
        demoStores1 "k" (Json.num 1)).2 = demoStores1 ∧
    handleStorageEvent demoEnvDown
        (okPair (createProxy demoEnvDown StorageTarget.localStorage "ns" none demoStores1)).1
        demoStores1 (StorageEvent.mk (some "ns") StorageTarget.localStorage)
      = ((okPair (createProxy demoEnvDown StorageTarget.localStorage "ns" none demoStores1)).1,
          demoStores1) := by
  obtain ⟨g1, _, _, g4, _, _, _, _, _, g10⟩ :=
    c7_unavailable_degrades demoEnvDown StorageTarget.localStorage (by decide)
  exact ⟨g1 "ns" demoStores1,
    g4 (okPair (createProxy demoEnvDown StorageTarget.localStorage "ns" none demoStores1)).1
      demoStores1 "k" (Json.num 1) (by decide),
    g10 (okPair (createProxy demoEnvDown StorageTarget.localStorage "ns" none demoStores1)).1
      demoStores1 (StorageEvent.mk (some "ns") StorageTarget.localStorage) (by decide)⟩
